import Mathlib

/-!
Verification of the time-convert parsing/conversion core.

The development shallowly embeds the two core source files
(`src/lib/timezone.ts` and the parser module) as executable Lean
definitions.  Machine numbers are modelled with `Nat`/`Int`; JavaScript
`Date` values are modelled as `Option Int` (milliseconds since the epoch,
`none` standing for an invalid date).  The ECMAScript runtime facilities
the code relies on (proleptic-Gregorian civil-date conversion of
`Date.UTC`/`getUTC*`, the `Intl` timezone database, `Date.parse`) are
external capabilities: the civil-calendar arithmetic is modelled exactly
below, and the `Intl`/`Date.parse` capabilities are abstracted as an
environment record.
-/

/-! ## Character and string primitives -/

/-- ASCII lower-casing, the case folding relevant to the source's
case-insensitive regexes (non-ASCII characters never fold to ASCII). -/
def asciiLower (c : Char) : Char :=
  if 65 ≤ c.toNat ∧ c.toNat ≤ 90 then Char.ofNat (c.toNat + 32) else c

/-- ASCII upper-casing, modelling `String.prototype.toUpperCase` on the
ASCII tokens the source applies it to. -/
def asciiUpper (c : Char) : Char :=
  if 97 ≤ c.toNat ∧ c.toNat ≤ 122 then Char.ofNat (c.toNat - 32) else c

/-- Whitespace as matched by the source's `\s` and `trim()` (ASCII part). -/
def jsSpace (c : Char) : Bool :=
  c == ' ' || c == '\t' || c == '\n' || c == '\r' || c == Char.ofNat 11 || c == Char.ofNat 12

/-- Word characters, the `\w` class used by `\b` boundaries. -/
def isWordCh (c : Char) : Bool :=
  c.isAlpha || c.isDigit || c == '_'

/-- Characters of the `[A-Za-z_]` class. -/
def isAlphaU (c : Char) : Bool := c.isAlpha || c == '_'

/-- Value of a decimal digit character. -/
def charVal (c : Char) : Nat := c.toNat - 48

/-- Numeric value of a digit string, as produced by `Number`/`BigInt` on an
all-digit string (exact; rounding of doubles above 2^53 is immaterial
because every such value is rejected by the max-instant bound anyway). -/
def digitsVal (cs : List Char) : Nat :=
  cs.foldl (fun a c => 10 * a + charVal c) 0

/-- Decimal digit character for a value below ten. -/
def digitChar10 (n : Nat) : Char :=
  match n with
  | 0 => '0' | 1 => '1' | 2 => '2' | 3 => '3' | 4 => '4'
  | 5 => '5' | 6 => '6' | 7 => '7' | 8 => '8' | _ => '9'

/-- Fuel-driven decimal rendering of a natural number. -/
def natDigitsAux : Nat → Nat → List Char
  | 0, _ => []
  | fuel + 1, n =>
    if n < 10 then [digitChar10 n]
    else natDigitsAux fuel (n / 10) ++ [digitChar10 (n % 10)]

/-- Decimal digits of a natural number, modelling `Number.prototype.toString`
for integral values. -/
def natDigits (n : Nat) : List Char := natDigitsAux (n + 1) n

/-- Decimal rendering of an integer, modelling template-literal insertion of
an integral JavaScript number. -/
def intRepr (n : Int) : List Char :=
  if n < 0 then '-' :: natDigits n.natAbs else natDigits n.toNat

/-- Left-pad to two characters with zeros: `value.toString().padStart(2, "0")`. -/
def pad2i (n : Int) : List Char :=
  let ds := intRepr n
  List.replicate (2 - ds.length) '0' ++ ds

/-- The source's `trim()` on both ends. -/
def jsTrim (cs : List Char) : List Char :=
  ((cs.dropWhile jsSpace).reverse.dropWhile jsSpace).reverse

/-- Index of the last occurrence of a character, `String.prototype.lastIndexOf`
(`none` standing for `-1`). -/
def lastIdxOf (c : Char) : List Char → Option Nat
  | [] => none
  | x :: rest =>
    match lastIdxOf c rest with
    | some i => some (i + 1)
    | none => if x == c then some 0 else none

/-- Case-insensitive comparison against an (already lower-case) literal. -/
def ciIs (cs : List Char) (lit : List Char) : Bool :=
  cs.map asciiLower == lit

/-! ## Civil-calendar model (ECMAScript proleptic Gregorian)

`Date.UTC` / `getUTC*` decompose instants by the proleptic Gregorian
calendar.  `daysFromCivil`/`civilFromDays` model that conversion exactly
(days relative to 1970-01-01): a 400-year era of 146097 days is split by a
division cascade into century / quadrennium / year / day-of-year, with the
era's single overflow day (29 Feb of year 400) absorbed by the correction
divisions. -/
def doeOf (z : Int) : Nat := ((z + 719468) % 146097).toNat

def eraOf (z : Int) : Int := (z + 719468) / 146097

def centuryOf (doe : Nat) : Nat := (doe - doe / 146096) / 36524

def docOf (doe : Nat) : Nat := doe - 36524 * centuryOf doe

def quadOf (doe : Nat) : Nat := docOf doe / 1461

def dqOf (doe : Nat) : Nat := docOf doe - 1461 * quadOf doe

def yIdxOf (doe : Nat) : Nat := (dqOf doe - dqOf doe / 1460) / 365

def doyOf (doe : Nat) : Nat := dqOf doe - 365 * yIdxOf doe

def yoeOf (doe : Nat) : Nat := 100 * centuryOf doe + 4 * quadOf doe + yIdxOf doe

def mpOf (doy : Nat) : Nat := (5 * doy + 2) / 153

def domOf (doy : Nat) : Nat := doy - (153 * mpOf doy + 2) / 5 + 1

def monthOf (doy : Nat) : Nat := if mpOf doy < 10 then mpOf doy + 3 else mpOf doy - 9

/-- Civil (year, month, day) of a day number (days since 1970-01-01). -/
def civilFromDays (z : Int) : Int × Nat × Nat :=
  let doe := doeOf z
  let m := monthOf (doyOf doe)
  (eraOf z * 400 + yoeOf doe + (if m ≤ 2 then 1 else 0), m, domOf (doyOf doe))

/-- Day number (days since 1970-01-01) of a civil date; for months 1..12 this
is the ECMAScript `MakeDay`. -/
def daysFromCivil (y m d : Int) : Int :=
  let y' := y - (if m ≤ 2 then 1 else 0)
  let era := y' / 400
  let yoe := (y' % 400).toNat
  let mp := (if m ≤ 2 then m + 9 else m - 3).toNat
  let doy : Int := ((153 * mp + 2) / 5 : Nat) + d - 1
  let doe : Int := (365 * yoe + yoe / 4 - yoe / 100 : Nat) + doy
  era * 146097 + doe - 719468

/-! ## JavaScript Date model -/

/-- The representable-instant bound (`maxDateMilliseconds` in the source,
also the ECMAScript time-value range). -/
def maxMs : Nat := 8640000000000000

/-- ECMAScript `TimeClip` / `new Date(ms)`: instants beyond the representable
range become an invalid date (`none`). -/
def timeClip (t : Int) : Option Int :=
  if t.natAbs ≤ maxMs then some t else none

/-- ECMAScript `Date.UTC(year, monthIndex, day, h, m, s, ms)` before clipping,
including the legacy remapping of years 0..99 to 1900..1999.  Faithful for
month indices 0..11 (the only ones the source produces). -/
def jsDateUTC (y monthIndex d h mi s ms : Int) : Int :=
  let yr := if 0 ≤ y ∧ y ≤ 99 then y + 1900 else y
  daysFromCivil yr (monthIndex + 1) d * 86400000 + h * 3600000 + mi * 60000 + s * 1000 + ms

/-- Civil fields of an instant, as read back through `getUTCFullYear`,
`getUTCMonth() + 1`, `getUTCDate`, `getUTCHours`, `getUTCMinutes`,
`getUTCSeconds`. -/
structure DateParts where
  year : Int
  month : Int
  day : Int
  hour : Int
  minute : Int
  second : Int
deriving DecidableEq, Repr

/-- UTC decomposition of a valid instant. -/
def msToParts (t : Int) : DateParts :=
  let day := t / 86400000
  let ms := (t % 86400000).toNat
  let c := civilFromDays day
  { year := c.1, month := (c.2.1 : Int), day := (c.2.2 : Int),
    hour := (ms / 3600000 : Nat), minute := (ms % 3600000 / 60000 : Nat),
    second := (ms % 60000 / 1000 : Nat) }

/-! ## Embedding of `src/lib/timezone.ts` -/

/-- The `ZoneSpec` tagged union. -/
inductive ZoneSpec where
  | iana (name : List Char) (label : Option (List Char))
  | fixed (offsetMinutes : Int) (label : List Char)
deriving DecidableEq, Repr

/-- Calendar components handed to the instant converter (`DateComponents`). -/
structure DateComponents where
  year : Int
  month : Int
  day : Int
  hour : Option Int := none
  minute : Option Int := none
  second : Option Int := none
  millisecond : Option Int := none
deriving DecidableEq, Repr

/-- External runtime capabilities the core depends on: the current clock,
the process-local zone name, and the `Intl` timezone database / native
`Date.parse` capabilities (§6 of the specification).  `ianaParts` models the
cached `Intl.DateTimeFormat(...).formatToParts` civil decomposition for a
named zone, `ianaShortName` the short zone-name lookup, `nativeParse` the
`Date.parse` free-text parser (`none` standing for `NaN`). -/
structure JsEnv where
  nowMs : Int
  localZone : List Char
  ianaValid : List Char → Bool
  ianaParts : List Char → Int → DateParts
  ianaShortName : List Char → Int → Option (List Char)
  nativeParse : List Char → Option Int

/-- `localTimeZone`: the resolved local zone name, defaulting to `"UTC"`. -/
def localTimeZone (env : JsEnv) : List Char :=
  if env.localZone == [] then ("UTC").data else env.localZone

/-- `formatOffset`: signed zero-padded `±HH:MM` for an offset in minutes. -/
def formatOffset (minutes : Int) : List Char :=
  (if 0 ≤ minutes then '+' else '-')
    :: pad2i (minutes.natAbs / 60 : Nat) ++ ':' :: pad2i (minutes.natAbs % 60 : Nat)

/-- Label `UTC±HH:MM` attached to fixed zones built by the resolver. -/
def utcLabelOf (off : Int) : List Char := 'U' :: 'T' :: 'C' :: formatOffset off

/-- `formatDateString`: the fixed output template
`YYYY-MM-DDTHH:MM:SS ±HH:MM ZONE`. -/
def formatDateString (parts : DateParts) (offsetMinutes : Int) (zoneToken : List Char) :
    List Char :=
  intRepr parts.year ++ '-' :: pad2i parts.month ++ '-' :: pad2i parts.day
    ++ 'T' :: pad2i parts.hour ++ ':' :: pad2i parts.minute ++ ':' :: pad2i parts.second
    ++ ' ' :: formatOffset offsetMinutes ++ ' ' :: zoneToken

/-- Matcher for `Etc\/GMT([+-])(\d{1,2})$` (case-insensitive) after the
literal prefix: returns the sign and the hour digits. -/
def etcMatch (cs : List Char) : Option (Char × List Char) :=
  match cs with
  | e :: t1 :: c :: s :: g :: m :: t2 :: sign :: ds =>
    if asciiLower e == 'e' && asciiLower t1 == 't' && asciiLower c == 'c' && s == '/' &&
        asciiLower g == 'g' && asciiLower m == 'm' && asciiLower t2 == 't' &&
        (sign == '+' || sign == '-') && !ds.isEmpty && ds.length ≤ 2 &&
        ds.all Char.isDigit then
      some (sign, ds)
    else none
  | _ => none

/-- Matcher for the shared suffix `([+-])\s*(\d{1,2})(?::?(\d{2}))?$` of the
offset patterns: sign, hour digits and optional minute digits, following the
regex's backtracking behaviour on colon-less 3- and 4-digit runs. -/
def signedHM (cs : List Char) : Option (Char × List Char × Option (List Char)) :=
  match cs with
  | [] => none
  | sign :: rest =>
    if sign == '+' || sign == '-' then
      let afterSp := rest.dropWhile jsSpace
      let run := afterSp.takeWhile Char.isDigit
      match afterSp.dropWhile Char.isDigit with
      | [] =>
        if run.length == 1 || run.length == 2 then some (sign, run, none)
        else if run.length == 3 then some (sign, run.take 1, some (run.drop 1))
        else if run.length == 4 then some (sign, run.take 2, some (run.drop 2))
        else none
      | ':' :: ms =>
        if (run.length == 1 || run.length == 2) && ms.length == 2 && ms.all Char.isDigit
        then some (sign, run, some ms) else none
      | _ => none
    else none

/-- Matcher for the case-insensitive `UTC`/`GMT` prefix of `offsetPattern`. -/
def utcGmtPrefix (cs : List Char) : Option (List Char) :=
  match cs with
  | a :: b :: c :: rest =>
    if (asciiLower a == 'u' && asciiLower b == 't' && asciiLower c == 'c') ||
        (asciiLower a == 'g' && asciiLower b == 'm' && asciiLower c == 't') then
      some rest
    else none
  | _ => none

/-- `parseFixedOffset`: recognition of `Etc/GMT±H[H]`, `(UTC|GMT)±H[H][:MM]`
and bare `±H[H][:MM]` fixed-offset zone specifiers. -/
def parseFixedOffset (raw : List Char) : Option ZoneSpec :=
  match etcMatch raw with
  | some (sign, ds) =>
    let hours : Int := (digitsVal ds : Nat)
    if hours > 23 then none
    else
      let off := (if sign == '+' then (-1 : Int) else 1) * hours * 60
      some (.fixed off (utcLabelOf off))
  | none =>
    let viaPrefix :=
      match utcGmtPrefix raw with
      | some rest => signedHM (rest.dropWhile jsSpace)
      | none => none
    match viaPrefix with
    | some (sign, hd, md) =>
      let hours : Int := (digitsVal hd : Nat)
      let minutes : Int := ((md.map digitsVal).getD 0 : Nat)
      if hours > 23 ∨ minutes > 59 then none
      else
        let off := (if sign == '+' then (1 : Int) else -1) * (hours * 60 + minutes)
        some (.fixed off (utcLabelOf off))
    | none =>
      match signedHM raw with
      | some (sign, hd, md) =>
        let hours : Int := (digitsVal hd : Nat)
        let minutes : Int := ((md.map digitsVal).getD 0 : Nat)
        if hours > 23 ∨ minutes > 59 then none
        else
          let off := (if sign == '+' then (1 : Int) else -1) * (hours * 60 + minutes)
          some (.fixed off (utcLabelOf off))
      | none => none

/-- `parseZone`: the full zone resolver. -/
def parseZone (env : JsEnv) (raw : List Char) : Option ZoneSpec :=
  let value := jsTrim raw
  if value == [] then none
  else if ciIs value ("local").data then some (.iana (localTimeZone env) (some ("Local").data))
  else if ciIs value ("utc").data || ciIs value ("gmt").data || ciIs value ("z").data then
    some (.fixed 0 ("UTC").data)
  else
    match parseFixedOffset value with
    | some z => some z
    | none => if env.ianaValid value then some (.iana value none) else none

/-- `zoneDisplayName`. -/
def zoneDisplayName (zone : ZoneSpec) : List Char :=
  match zone with
  | .fixed _ label => label
  | .iana name label => label.getD name

/-- `getTimeZoneOffsetMilliseconds`: offset of a named zone at an instant,
via the `Intl` civil decomposition and `Date.UTC`. -/
def getTimeZoneOffsetMilliseconds (env : JsEnv) (t : Int) (tz : List Char) : Int :=
  let p := env.ianaParts tz t
  jsDateUTC p.year (p.month - 1) p.day p.hour p.minute p.second 0 - t

/-- `toInstantFromComponents`: UTC-guess conversion with fixed-offset
subtraction, or the two-pass DST correction for named zones.  The result is
`none` when the produced date is invalid. -/
def toInstantFromComponents (env : JsEnv) (c : DateComponents) (zone : ZoneSpec) :
    Option Int :=
  let hour := c.hour.getD 0
  let minute := c.minute.getD 0
  let second := c.second.getD 0
  let millisecond := c.millisecond.getD 0
  let utcGuess := jsDateUTC c.year (c.month - 1) c.day hour minute second millisecond
  match timeClip utcGuess with
  | none => none
  | some g =>
    match zone with
    | .fixed off _ => timeClip (g - off * 60000)
    | .iana name _ =>
      let firstOffset := getTimeZoneOffsetMilliseconds env g name
      let adjusted := g - firstOffset
      let secondOffset := getTimeZoneOffsetMilliseconds env adjusted name
      timeClip (if secondOffset ≠ firstOffset then g - secondOffset else adjusted)

/-- `formatInstantForZone`: render an instant in a zone using the fixed
output template.  An out-of-range shifted instant renders through `NaN`
fields exactly as the source would. -/
def formatInstantForZone (env : JsEnv) (t : Int) (zone : ZoneSpec) : List Char :=
  match zone with
  | .fixed off lbl =>
    match timeClip (t + off * 60000) with
    | some shifted => formatDateString (msToParts shifted) off lbl
    | none => ("NaN-NaN-NaNTNaN:NaN:NaN").data ++ ' ' :: formatOffset off ++ ' ' :: lbl
  | .iana name _ =>
    let parts := env.ianaParts name t
    let offMin := (getTimeZoneOffsetMilliseconds env t name).tdiv 60000
    formatDateString parts offMin ((env.ianaShortName name t).getD name)

/-! ## Embedding of the parser module -/

/-- Result of `parseDateInput` (`ParseSuccess`/`ParseFailure`). -/
inductive ParseResult where
  | success (input : List Char) (sourceZone : ZoneSpec) (sourceZoneLabel : List Char)
      (date : Int) (matchedPattern : List Char)
  | failure (input : List Char) (sourceZone : ZoneSpec) (sourceZoneLabel : List Char)
      (error : List Char)
deriving DecidableEq, Repr

/-- The instant carried by a successful result. -/
def ParseResult.instantOf : ParseResult → Option Int
  | .success _ _ _ d _ => some d
  | .failure _ _ _ _ => none

/-- The error text carried by a failure result. -/
def ParseResult.errorOf : ParseResult → Option (List Char)
  | .success _ _ _ _ _ => none
  | .failure _ _ _ e => e

/-- The `ParseState` classification enumeration. -/
inductive ParseState where
  | unknown | digit | digitDash | digitSlash | digitAlpha | alpha
deriving DecidableEq, Repr

/-- The `monthMap` month-name table. -/
def monthMap : List ((List Char) × Int) :=
  [(("jan").data, 1), (("january").data, 1), (("feb").data, 2), (("february").data, 2),
   (("mar").data, 3), (("march").data, 3), (("apr").data, 4), (("april").data, 4),
   (("may").data, 5), (("jun").data, 6), (("june").data, 6), (("jul").data, 7),
   (("july").data, 7), (("aug").data, 8), (("august").data, 8), (("sep").data, 9),
   (("sept").data, 9), (("september").data, 9), (("oct").data, 10), (("october").data, 10),
   (("nov").data, 11), (("november").data, 11), (("dec").data, 12), (("december").data, 12)]

/-- `parseMonthToken`: case-insensitive month-name lookup. -/
def parseMonthToken (tok : List Char) : Option Int :=
  List.lookup (tok.map asciiLower) monthMap

/-- `expandTwoDigitYear`. -/
def expandTwoDigitYear (value : Int) : Int :=
  if value ≥ 69 then 1900 + value else 2000 + value

/-- `parseFractionMilliseconds`: pad the fraction digits with `"000"`, keep
three, and read them as a number. -/
def parseFractionMilliseconds (rawFraction : Option (List Char)) : Int :=
  match rawFraction with
  | none => 0
  | some f => (digitsVal ((f ++ ['0', '0', '0']).take 3) : Nat)

/-- `applyMeridiem`: AM/PM normalisation of the hour field. -/
def applyMeridiem (hour : Int) (meridiem : Option (List Char)) : Option Int :=
  match meridiem with
  | none => some hour
  | some m =>
    let upper := m.map asciiUpper
    if hour < 1 ∨ hour > 12 then none
    else if upper == ['A', 'M'] then some (if hour == 12 then 0 else hour)
    else if upper == ['P', 'M'] then some (if hour == 12 then 12 else hour + 12)
    else none

/-- `isValidCalendarDate`: range check plus the source's round-trip through
`Date.UTC` and the `getUTC*` readback. -/
def isValidCalendarDate (y m d : Int) : Bool :=
  if m < 1 ∨ m > 12 ∨ d < 1 ∨ d > 31 then false
  else
    match timeClip (jsDateUTC y (m - 1) d 0 0 0 0) with
    | none => false
    | some g =>
      let c := civilFromDays (g / 86400000)
      c.1 == y && ((c.2.1 : Int)) == m && ((c.2.2 : Int)) == d

/-- `buildDateFromComponents`: calendar and time-of-day validation followed
by instant conversion. -/
def buildDateFromComponents (env : JsEnv) (base : DateComponents) (sourceZone : ZoneSpec) :
    Option Int :=
  let hour := base.hour.getD 0
  let minute := base.minute.getD 0
  let second := base.second.getD 0
  let millisecond := base.millisecond.getD 0
  if ¬ isValidCalendarDate base.year base.month base.day then none
  else if hour < 0 ∨ hour > 23 ∨ minute < 0 ∨ minute > 59 ∨ second < 0 ∨ second > 59 then none
  else if millisecond < 0 ∨ millisecond > 999 then none
  else toInstantFromComponents env base sourceZone

/-- `parseComponentsWithMeridiem`. -/
def parseComponentsWithMeridiem (env : JsEnv) (year month day hour minute second millisecond : Int)
    (sourceZone : ZoneSpec) (meridiem : Option (List Char)) : Option Int :=
  match applyMeridiem hour meridiem with
  | none => none
  | some nh =>
    buildDateFromComponents env
      { year := year, month := month, day := day, hour := some nh, minute := some minute,
        second := some second, millisecond := some millisecond } sourceZone

/-- Prefix test for `/^now/i`. -/
def startsNowCI : List Char → Bool
  | n :: o :: w :: _ => asciiLower n == 'n' && asciiLower o == 'o' && asciiLower w == 'w'
  | _ => false

/-- `parseNow`: the current instant truncated to whole seconds. -/
def parseNow (env : JsEnv) (input : List Char) : Option Int :=
  if startsNowCI (jsTrim input) then timeClip (env.nowMs.tdiv 1000 * 1000) else none

/-- Unit words accepted by the `ago` pattern. -/
def agoUnits : List (List Char) :=
  [("minute").data, ("minutes").data, ("hour").data, ("hours").data,
   ("day").data, ("days").data]

/-- Matcher for `^(\d+)\s+(minutes?|hours?|day|days)\s+ago$` (case-insensitive):
returns the digits and the lower-cased unit word. -/
def agoMatch (cs : List Char) : Option ((List Char) × (List Char)) :=
  let ds := cs.takeWhile Char.isDigit
  let r1 := cs.dropWhile Char.isDigit
  if ds.isEmpty then none
  else if (r1.takeWhile jsSpace).isEmpty then none
  else
    let r2 := r1.dropWhile jsSpace
    let w := (r2.takeWhile Char.isAlpha).map asciiLower
    let r3 := r2.dropWhile Char.isAlpha
    if ¬ (agoUnits.contains w) then none
    else if (r3.takeWhile jsSpace).isEmpty then none
    else
      match r3.dropWhile jsSpace with
      | a :: g :: o :: [] =>
        if asciiLower a == 'a' && asciiLower g == 'g' && asciiLower o == 'o' then
          some (ds, w)
        else none
      | _ => none

/-- `parseAgo`: relative offsets from the current instant. -/
def parseAgo (env : JsEnv) (input : List Char) : Option Int :=
  match agoMatch (jsTrim input) with
  | none => none
  | some (ds, unit) =>
    let amount : Int := (digitsVal ds : Nat)
    let multiplier : Int :=
      if unit.take 6 == ("minute").data then 60000
      else if unit.take 4 == ("hour").data then 3600000
      else 86400000
    timeClip (env.nowMs - amount * multiplier)

/-- `parseNumeric`: all-digit inputs; special-cased absolute forms, then the
digit-length epoch-magnitude heuristic. -/
def parseNumeric (env : JsEnv) (input : List Char) (sourceZone : ZoneSpec) : Option Int :=
  if input.isEmpty || !input.all Char.isDigit then none
  else if input.length == 14 && input.take 1 == ['2'] then
    parseComponentsWithMeridiem env
      (digitsVal (input.take 4)) (digitsVal ((input.drop 4).take 2))
      (digitsVal ((input.drop 6).take 2)) (digitsVal ((input.drop 8).take 2))
      (digitsVal ((input.drop 10).take 2)) (digitsVal ((input.drop 12).take 2))
      0 sourceZone none
  else if input.length == 8 && input.take 1 == ['2'] then
    buildDateFromComponents env
      { year := (digitsVal (input.take 4) : Nat), month := (digitsVal ((input.drop 4).take 2) : Nat),
        day := (digitsVal ((input.drop 6).take 2) : Nat) } sourceZone
  else if input.length == 4 && input.take 1 == ['2'] then
    buildDateFromComponents env { year := (digitsVal input : Nat), month := 1, day := 1 } sourceZone
  else
    let n := digitsVal input
    let ms : Nat :=
      if input.length > 16 then n / 1000000
      else if input.length > 13 then n / 1000
      else if input.length > 10 then n
      else n * 1000
    if ms > maxMs then none else some (ms : Int)

/-- Matcher for the shared time suffix
`(\d{1,2}):(\d{2})(?::(\d{2}))?(?:[.,](\d{1,9}))?(?:\s*(AM|PM))?$` of the
dash- and slash-date patterns: hour and minute digits, optional second,
fraction and meridiem groups. -/
def timeMatch (cs : List Char) :
    Option ((List Char) × (List Char) × Option (List Char) × Option (List Char) ×
      Option (List Char)) :=
  let h := cs.takeWhile Char.isDigit
  let r1 := cs.dropWhile Char.isDigit
  if h.isEmpty ∨ h.length > 2 then none
  else
    match r1 with
    | ':' :: r2 =>
      let m := r2.takeWhile Char.isDigit
      let r3 := r2.dropWhile Char.isDigit
      if m.length ≠ 2 then none
      else
        let secPart : Option (Option (List Char) × List Char) :=
          match r3 with
          | ':' :: r4 =>
            let s := r4.takeWhile Char.isDigit
            if s.length == 2 then some (some s, r4.dropWhile Char.isDigit) else none
          | _ => some (none, r3)
        match secPart with
        | none => none
        | some (secs, r5) =>
          let fracPart : Option (Option (List Char) × List Char) :=
            match r5 with
            | c :: r6 =>
              if c == '.' || c == ',' then
                let f := r6.takeWhile Char.isDigit
                if 1 ≤ f.length ∧ f.length ≤ 9 then some (some f, r6.dropWhile Char.isDigit)
                else none
              else some (none, r5)
            | [] => some (none, [])
          match fracPart with
          | none => none
          | some (frac, r7) =>
            match r7 with
            | [] => some (h, m, secs, frac, none)
            | _ =>
              match r7.dropWhile jsSpace with
              | a :: mm :: [] =>
                if (asciiLower a == 'a' || asciiLower a == 'p') && asciiLower mm == 'm' then
                  some (h, m, secs, frac, some [a, mm])
                else none
              | _ => none
    | _ => none

/-- `parseDashDate`: `YYYY-M-D`, `YYYY-M`, `YYYY-Mon-D` and the full
date-time form. -/
def parseDashDate (env : JsEnv) (input : List Char) (sourceZone : ZoneSpec) : Option Int :=
  let y := input.takeWhile Char.isDigit
  let r1 := input.dropWhile Char.isDigit
  if y.length ≠ 4 then none
  else
    match r1 with
    | '-' :: r2 =>
      let mrun := r2.takeWhile Char.isDigit
      let r3 := r2.dropWhile Char.isDigit
      if mrun.isEmpty then
        let arun := r2.takeWhile Char.isAlpha
        match r2.dropWhile Char.isAlpha with
        | '-' :: r4 =>
          let drun := r4.takeWhile Char.isDigit
          if arun.length == 3 && !drun.isEmpty && drun.length ≤ 2 &&
              (r4.dropWhile Char.isDigit).isEmpty then
            match parseMonthToken arun with
            | none => none
            | some mo =>
              buildDateFromComponents env
                { year := (digitsVal y : Nat), month := mo, day := (digitsVal drun : Nat) }
                sourceZone
          else none
        | _ => none
      else if mrun.length > 2 then none
      else
        match r3 with
        | [] =>
          buildDateFromComponents env
            { year := (digitsVal y : Nat), month := (digitsVal mrun : Nat), day := 1 } sourceZone
        | '-' :: r4 =>
          let drun := r4.takeWhile Char.isDigit
          let r5 := r4.dropWhile Char.isDigit
          if drun.isEmpty ∨ drun.length > 2 then none
          else
            match r5 with
            | [] =>
              buildDateFromComponents env
                { year := (digitsVal y : Nat), month := (digitsVal mrun : Nat),
                  day := (digitsVal drun : Nat) } sourceZone
            | sep :: r6 =>
              if sep == 'T' || sep == 't' || jsSpace sep then
                match timeMatch r6 with
                | none => none
                | some (hh, mi, secs, frac, mer) =>
                  parseComponentsWithMeridiem env (digitsVal y) (digitsVal mrun) (digitsVal drun)
                    (digitsVal hh) (digitsVal mi)
                    ((secs.map (fun s => ((digitsVal s : Nat) : Int))).getD 0)
                    (parseFractionMilliseconds frac) sourceZone mer
              else none
        | _ => none
    | _ => none

/-- Matcher for `^(\d{1,4})\/(\d{1,2})\/(\d{1,4})` with the optional shared
time suffix. -/
def slashMatch (cs : List Char) :
    Option ((List Char) × (List Char) × (List Char) ×
      Option ((List Char) × (List Char) × Option (List Char) × Option (List Char) ×
        Option (List Char))) :=
  let a := cs.takeWhile Char.isDigit
  let r1 := cs.dropWhile Char.isDigit
  if a.isEmpty ∨ a.length > 4 then none
  else
    match r1 with
    | '/' :: r2 =>
      let b := r2.takeWhile Char.isDigit
      let r3 := r2.dropWhile Char.isDigit
      if b.isEmpty ∨ b.length > 2 then none
      else
        match r3 with
        | '/' :: r4 =>
          let c := r4.takeWhile Char.isDigit
          let r5 := r4.dropWhile Char.isDigit
          if c.isEmpty ∨ c.length > 4 then none
          else
            match r5 with
            | [] => some (a, b, c, none)
            | _ =>
              if (r5.takeWhile jsSpace).isEmpty then none
              else
                match timeMatch (r5.dropWhile jsSpace) with
                | none => none
                | some tg => some (a, b, c, some tg)
        | _ => none
    | _ => none

/-- `parseSlashDate`: slash dates with the year-position disambiguation and
the two-interpretation fallback for all-short groups. -/
def parseSlashDate (env : JsEnv) (input : List Char) (sourceZone : ZoneSpec) : Option Int :=
  match slashMatch input with
  | none => none
  | some (a, b, c, tg) =>
    let hour : Int := match tg with | some t => (digitsVal t.1 : Nat) | none => 0
    let minute : Int := match tg with | some t => (digitsVal t.2.1 : Nat) | none => 0
    let second : Int :=
      match tg with
      | some t => ((t.2.2.1.map (fun s => ((digitsVal s : Nat) : Int))).getD 0)
      | none => 0
    let millisecond : Int :=
      match tg with | some t => parseFractionMilliseconds t.2.2.2.1 | none => 0
    let meridiem : Option (List Char) := match tg with | some t => t.2.2.2.2 | none => none
    let attempts : List (Int × Int × Int) :=
      if a.length == 4 then
        [(((digitsVal a : Nat) : Int), ((digitsVal b : Nat) : Int), ((digitsVal c : Nat) : Int))]
      else if c.length == 4 then
        [(((digitsVal c : Nat) : Int), ((digitsVal a : Nat) : Int), ((digitsVal b : Nat) : Int))]
      else if a.length ≤ 2 && b.length ≤ 2 && c.length ≤ 2 then
        [(expandTwoDigitYear (digitsVal a), ((digitsVal b : Nat) : Int), ((digitsVal c : Nat) : Int)),
         (expandTwoDigitYear (digitsVal c), ((digitsVal a : Nat) : Int), ((digitsVal b : Nat) : Int))]
      else []
    attempts.findSome? fun att =>
      parseComponentsWithMeridiem env att.1 att.2.1 att.2.2 hour minute second millisecond
        sourceZone meridiem

/-- `parseChineseDate`: `YYYY年M月D日[ H:MM]`. -/
def parseChineseDate (env : JsEnv) (input : List Char) (sourceZone : ZoneSpec) : Option Int :=
  let cs := jsTrim input
  let y := cs.takeWhile Char.isDigit
  let r1 := cs.dropWhile Char.isDigit
  if y.length ≠ 4 then none
  else
    match r1 with
    | '年' :: r2 =>
      let mo := r2.takeWhile Char.isDigit
      let r3 := r2.dropWhile Char.isDigit
      if mo.isEmpty ∨ mo.length > 2 then none
      else
        match r3 with
        | '月' :: r4 =>
          let d := r4.takeWhile Char.isDigit
          let r5 := r4.dropWhile Char.isDigit
          if d.isEmpty ∨ d.length > 2 then none
          else
            match r5 with
            | '日' :: r6 =>
              match r6 with
              | [] =>
                parseComponentsWithMeridiem env (digitsVal y) (digitsVal mo) (digitsVal d)
                  0 0 0 0 sourceZone none
              | _ =>
                if (r6.takeWhile jsSpace).isEmpty then none
                else
                  let r7 := r6.dropWhile jsSpace
                  let hh := r7.takeWhile Char.isDigit
                  let r8 := r7.dropWhile Char.isDigit
                  if hh.isEmpty ∨ hh.length > 2 then none
                  else
                    match r8 with
                    | ':' :: r9 =>
                      let mi := r9.takeWhile Char.isDigit
                      if mi.length == 2 && (r9.dropWhile Char.isDigit).isEmpty then
                        parseComponentsWithMeridiem env (digitsVal y) (digitsVal mo) (digitsVal d)
                          (digitsVal hh) (digitsVal mi) 0 0 sourceZone none
                      else none
                    | _ => none
            | _ => none
        | _ => none
    | _ => none

/-- `parseDayMonthName`: `D Mon YYYY, H:MM[:SS]`. -/
def parseDayMonthName (env : JsEnv) (input : List Char) (sourceZone : ZoneSpec) : Option Int :=
  let cs := jsTrim input
  let d := cs.takeWhile Char.isDigit
  let r1 := cs.dropWhile Char.isDigit
  if d.isEmpty ∨ d.length > 2 then none
  else if (r1.takeWhile jsSpace).isEmpty then none
  else
    let r2 := r1.dropWhile jsSpace
    let mon := r2.takeWhile Char.isAlpha
    let r3 := r2.dropWhile Char.isAlpha
    if mon.length ≠ 3 then none
    else if (r3.takeWhile jsSpace).isEmpty then none
    else
      let r4 := r3.dropWhile jsSpace
      let y := r4.takeWhile Char.isDigit
      let r5 := r4.dropWhile Char.isDigit
      if y.length ≠ 4 then none
      else
        match r5 with
        | ',' :: r6 =>
          let r7 := r6.dropWhile jsSpace
          let hh := r7.takeWhile Char.isDigit
          let r8 := r7.dropWhile Char.isDigit
          if hh.isEmpty ∨ hh.length > 2 then none
          else
            match r8 with
            | ':' :: r9 =>
              let mi := r9.takeWhile Char.isDigit
              let r10 := r9.dropWhile Char.isDigit
              if mi.length ≠ 2 then none
              else
                match r10 with
                | [] =>
                  match parseMonthToken mon with
                  | none => none
                  | some mo =>
                    parseComponentsWithMeridiem env (digitsVal y) mo (digitsVal d)
                      (digitsVal hh) (digitsVal mi) 0 0 sourceZone none
                | ':' :: r11 =>
                  let ss := r11.takeWhile Char.isDigit
                  if ss.length == 2 && (r11.dropWhile Char.isDigit).isEmpty then
                    match parseMonthToken mon with
                    | none => none
                    | some mo =>
                      parseComponentsWithMeridiem env (digitsVal y) mo (digitsVal d)
                        (digitsVal hh) (digitsVal mi) (digitsVal ss) 0 sourceZone none
                  else none
                | _ => none
            | _ => none
        | _ => none

/-- `parseMonthNameDate`: `Mon D, YYYY[ H:MM:SS AM|PM]`. -/
def parseMonthNameDate (env : JsEnv) (input : List Char) (sourceZone : ZoneSpec) : Option Int :=
  let cs := jsTrim input
  let mon := cs.takeWhile Char.isAlpha
  let r1 := cs.dropWhile Char.isAlpha
  if mon.length < 3 ∨ mon.length > 9 then none
  else if (r1.takeWhile jsSpace).isEmpty then none
  else
    let r2 := r1.dropWhile jsSpace
    let d := r2.takeWhile Char.isDigit
    let r3 := r2.dropWhile Char.isDigit
    if d.isEmpty ∨ d.length > 2 then none
    else
      match r3 with
      | ',' :: r4 =>
        let r5 := r4.dropWhile jsSpace
        let y := r5.takeWhile Char.isDigit
        let r6 := r5.dropWhile Char.isDigit
        if y.length ≠ 4 then none
        else
          match r6 with
          | [] =>
            match parseMonthToken mon with
            | none => none
            | some mo =>
              parseComponentsWithMeridiem env (digitsVal y) mo (digitsVal d) 0 0 0 0
                sourceZone none
          | _ =>
            if (r6.takeWhile jsSpace).isEmpty then none
            else
              let r7 := r6.dropWhile jsSpace
              let hh := r7.takeWhile Char.isDigit
              let r8 := r7.dropWhile Char.isDigit
              if hh.isEmpty ∨ hh.length > 2 then none
              else
                match r8 with
                | ':' :: r9 =>
                  let mi := r9.takeWhile Char.isDigit
                  let r10 := r9.dropWhile Char.isDigit
                  if mi.length ≠ 2 then none
                  else
                    match r10 with
                    | ':' :: r11 =>
                      let ss := r11.takeWhile Char.isDigit
                      let r12 := r11.dropWhile Char.isDigit
                      if ss.length ≠ 2 then none
                      else
                        match r12.dropWhile jsSpace with
                        | am :: mm :: [] =>
                          if (asciiLower am == 'a' || asciiLower am == 'p') &&
                              asciiLower mm == 'm' then
                            match parseMonthToken mon with
                            | none => none
                            | some mo =>
                              parseComponentsWithMeridiem env (digitsVal y) mo (digitsVal d)
                                (digitsVal hh) (digitsVal mi) (digitsVal ss) 0 sourceZone
                                (some [am, mm])
                          else none
                        | _ => none
                    | _ => none
                | _ => none
      | _ => none

/-- Tail of the ANSI/ctime pattern after the month token:
`\s+(\d{1,2})\s+(\d{1,2}):(\d{2}):(\d{2})\s+(\d{4})$`. -/
def ansiTail (env : JsEnv) (mon : List Char) (cs : List Char) (sourceZone : ZoneSpec) :
    Option Int :=
  let d := cs.takeWhile Char.isDigit
  let r1 := cs.dropWhile Char.isDigit
  if d.isEmpty ∨ d.length > 2 then none
  else if (r1.takeWhile jsSpace).isEmpty then none
  else
    let r2 := r1.dropWhile jsSpace
    let hh := r2.takeWhile Char.isDigit
    let r3 := r2.dropWhile Char.isDigit
    if hh.isEmpty ∨ hh.length > 2 then none
    else
      match r3 with
      | ':' :: r4 =>
        let mi := r4.takeWhile Char.isDigit
        let r5 := r4.dropWhile Char.isDigit
        if mi.length ≠ 2 then none
        else
          match r5 with
          | ':' :: r6 =>
            let ss := r6.takeWhile Char.isDigit
            let r7 := r6.dropWhile Char.isDigit
            if ss.length ≠ 2 then none
            else if (r7.takeWhile jsSpace).isEmpty then none
            else
              let r8 := r7.dropWhile jsSpace
              let y := r8.takeWhile Char.isDigit
              if y.length == 4 && (r8.dropWhile Char.isDigit).isEmpty then
                match parseMonthToken mon with
                | none => none
                | some mo =>
                  parseComponentsWithMeridiem env (digitsVal y) mo (digitsVal d)
                    (digitsVal hh) (digitsVal mi) (digitsVal ss) 0 sourceZone none
              else none
          | _ => none
      | _ => none

/-- `parseAnsiStyle`: ctime-like `[Wkd ]Mon D H:MM:SS YYYY`. -/
def parseAnsiStyle (env : JsEnv) (input : List Char) (sourceZone : ZoneSpec) : Option Int :=
  let cs := jsTrim input
  let w1 := cs.takeWhile Char.isAlpha
  let r1 := cs.dropWhile Char.isAlpha
  if w1.length ≠ 3 then none
  else if (r1.takeWhile jsSpace).isEmpty then none
  else
    let r2 := r1.dropWhile jsSpace
    let headAlpha := match r2 with | c :: _ => c.isAlpha | [] => false
    if headAlpha then
      let mon := r2.takeWhile Char.isAlpha
      let r3 := r2.dropWhile Char.isAlpha
      if mon.length ≠ 3 then none
      else if (r3.takeWhile jsSpace).isEmpty then none
      else ansiTail env mon (r3.dropWhile jsSpace) sourceZone
    else ansiTail env w1 r2 sourceZone

/-- Boundary-checked case-insensitive three-letter word occurrence, for
`\b(?:UTC|GMT)\b` (the word itself begins at the scan position; the caller
tracks the left boundary). -/
def wordCI3At (w : List Char) (l : List Char) : Bool :=
  match l with
  | a :: b :: c :: rest =>
    ([asciiLower a, asciiLower b, asciiLower c] == w) &&
      (match rest with | [] => true | d :: _ => !isWordCh d)
  | _ => false

/-- Scanner for `\b(?:UTC|GMT)\b` (case-insensitive), tracking whether the
previous character was a word character. -/
def utcGmtScan : Bool → List Char → Bool
  | _, [] => false
  | prevW, c :: rest =>
    (!prevW && (wordCI3At ("utc").data (c :: rest) || wordCI3At ("gmt").data (c :: rest)))
      || utcGmtScan (isWordCh c) rest

/-- Occurrence test for `Etc\/GMT[+-]\d{1,2}` (case-insensitive) at the scan
position. -/
def etcScanAt (l : List Char) : Bool :=
  match l with
  | e :: t1 :: c :: s :: g :: m :: t2 :: sign :: d :: _ =>
    asciiLower e == 'e' && asciiLower t1 == 't' && asciiLower c == 'c' && s == '/' &&
      asciiLower g == 'g' && asciiLower m == 'm' && asciiLower t2 == 't' &&
      (sign == '+' || sign == '-') && d.isDigit
  | _ => false

/-- Scanner for `Etc\/GMT[+-]\d{1,2}`. -/
def etcScan : List Char → Bool
  | [] => false
  | l@(_ :: rest) => etcScanAt l || etcScan rest

/-- Occurrence test for `[A-Za-z_]+\/[A-Za-z_]+\b` starting at the scan
position (the closing boundary fails only on a following digit). -/
def regionSlashAt (l : List Char) : Bool :=
  let r1 := l.takeWhile isAlphaU
  match l.dropWhile isAlphaU with
  | '/' :: r2 =>
    let r3 := r2.takeWhile isAlphaU
    !r1.isEmpty && !r3.isEmpty &&
      (match r2.dropWhile isAlphaU with | [] => true | c :: _ => !c.isDigit)
  | _ => false

/-- Scanner for `\b[A-Za-z_]+\/[A-Za-z_]+\b`. -/
def regionScan : Bool → List Char → Bool
  | _, [] => false
  | prevW, c :: rest =>
    (!prevW && isAlphaU c && regionSlashAt (c :: rest)) || regionScan (isWordCh c) rest

/-- Occurrence test for `[+-]\d{2}:?\d{2}(?!\d)` at the scan position. -/
def numOffsetAt (l : List Char) : Bool :=
  match l with
  | s :: a :: b :: rest =>
    (s == '+' || s == '-') && a.isDigit && b.isDigit &&
      (match rest with
       | ':' :: c :: d :: r2 =>
         c.isDigit && d.isDigit && (match r2 with | [] => true | e :: _ => !e.isDigit)
       | c :: d :: r2 =>
         c.isDigit && d.isDigit && (match r2 with | [] => true | e :: _ => !e.isDigit)
       | _ => false)
  | _ => false

/-- Scanner for `[+-]\d{2}:?\d{2}(?!\d)`. -/
def numOffsetScan : List Char → Bool
  | [] => false
  | l@(_ :: rest) => numOffsetAt l || numOffsetScan rest

/-- Test for `\dZ$`. -/
def trailingZDigit (cs : List Char) : Bool :=
  match cs.reverse with
  | 'Z' :: d :: _ => d.isDigit
  | _ => false

/-- `hasExplicitTimeZone`: the eligibility gate of the native fallback. -/
def hasExplicitTimeZone (input : List Char) : Bool :=
  let trimmed := jsTrim input
  utcGmtScan false trimmed || etcScan trimmed || regionScan false trimmed ||
    numOffsetScan trimmed || trailingZDigit trimmed

/-- First normalisation pass of `normalizeNativeInput`:
`(\d),(\d{3,9})(?!\d)` is rewritten to the digit, a dot and the first three
fraction digits (fuel-driven left-to-right global replacement). -/
def repl1Aux : Nat → List Char → List Char
  | 0, cs => cs
  | fuel + 1, cs =>
    match cs with
    | [] => []
    | d :: ',' :: rest =>
      if d.isDigit then
        let run := rest.takeWhile Char.isDigit
        if 3 ≤ run.length ∧ run.length ≤ 9 then
          d :: '.' :: run.take 3 ++ repl1Aux fuel (rest.dropWhile Char.isDigit)
        else d :: repl1Aux fuel (',' :: rest)
      else d :: repl1Aux fuel (',' :: rest)
    | c :: rest => c :: repl1Aux fuel rest

/-- Second normalisation pass: `\.(\d{3})\d+` keeps only three fraction
digits. -/
def repl2Aux : Nat → List Char → List Char
  | 0, cs => cs
  | _ + 1, [] => []
  | fuel + 1, '.' :: rest =>
    let run := rest.takeWhile Char.isDigit
    if run.length ≥ 4 then '.' :: run.take 3 ++ repl2Aux fuel (rest.dropWhile Char.isDigit)
    else '.' :: repl2Aux fuel rest
  | fuel + 1, c :: rest => c :: repl2Aux fuel rest

/-- Third normalisation pass: `\s+` collapses to a single space. -/
def repl3Aux : Nat → List Char → List Char
  | 0, cs => cs
  | _ + 1, [] => []
  | fuel + 1, c :: rest =>
    if jsSpace c then ' ' :: repl3Aux fuel (rest.dropWhile jsSpace)
    else c :: repl3Aux fuel rest

/-- `normalizeNativeInput`. -/
def normalizeNativeInput (input : List Char) : List Char :=
  let t := jsTrim input
  let s1 := repl1Aux (t.length + 1) t
  let s2 := repl2Aux (s1.length + 1) s1
  repl3Aux (s2.length + 1) s2

/-- `parseWithNativeDate`: native `Date.parse` fallback, attempted only with
an explicit zone token in the text or when the source zone is the process's
local zone. -/
def parseWithNativeDate (env : JsEnv) (input : List Char) (sourceZone : ZoneSpec) : Option Int :=
  let explicitTZ := hasExplicitTimeZone input
  let sourceIsLocal :=
    match sourceZone with
    | .iana name _ => name == localTimeZone env
    | .fixed _ _ => false
  if !explicitTZ && !sourceIsLocal then none
  else env.nativeParse (normalizeNativeInput input)

/-- `detectState`: the input-shape classifier. -/
def detectState (input : List Char) : ParseState :=
  let v := jsTrim input
  match v with
  | [] => .unknown
  | c :: _ =>
    if c.isDigit then
      if v.all Char.isDigit then .digit
      else if v.contains '-' then .digitDash
      else if v.contains '/' then .digitSlash
      else if v.any (fun ch => ch.isAlpha || (0x4E00 ≤ ch.toNat ∧ ch.toNat ≤ 0x9FFF)) then
        .digitAlpha
      else .digit
    else if c.isAlpha then .alpha
    else .unknown

/-- `splitInputAndZone`: extraction of a trailing `,zone` clause. -/
def splitInputAndZone (env : JsEnv) (rawInput : List Char) (defaultSourceZone : ZoneSpec) :
    List Char × ZoneSpec :=
  let trimmed := jsTrim rawInput
  match lastIdxOf ',' trimmed with
  | none => (trimmed, defaultSourceZone)
  | some i =>
    if i == 0 then (trimmed, defaultSourceZone)
    else
      let left := jsTrim (trimmed.take i)
      let right := jsTrim (trimmed.drop (i + 1))
      match parseZone env right with
      | none => (trimmed, defaultSourceZone)
      | some z => (left, z)

/-- A labelled format-parsing function of the pipeline. -/
abbrev ParserFn := JsEnv → List Char → ZoneSpec → Option Int

/-- `parserPipeline`: the ordered parser table per classification state. -/
def parserPipeline (state : ParseState) : List ((List Char) × ParserFn) :=
  let common : List ((List Char) × ParserFn) :=
    [(("now").data, fun env input _ => parseNow env input),
     (("ago").data, fun env input _ => parseAgo env input)]
  match state with
  | .digit => common ++
      [(("numeric").data, parseNumeric), (("native").data, parseWithNativeDate)]
  | .digitDash => common ++
      [(("dash").data, parseDashDate), (("chinese").data, parseChineseDate),
       (("native").data, parseWithNativeDate)]
  | .digitSlash => common ++
      [(("slash").data, parseSlashDate), (("native").data, parseWithNativeDate)]
  | .digitAlpha => common ++
      [(("chinese").data, parseChineseDate), (("day-month-name").data, parseDayMonthName),
       (("native").data, parseWithNativeDate)]
  | .alpha => common ++
      [(("month-name").data, parseMonthNameDate), (("ansi").data, parseAnsiStyle),
       (("native").data, parseWithNativeDate)]
  | .unknown => common ++
      [(("numeric").data, parseNumeric), (("dash").data, parseDashDate),
       (("slash").data, parseSlashDate), (("chinese").data, parseChineseDate),
       (("native").data, parseWithNativeDate)]

/-- The pipeline loop: first parser producing a valid instant wins. -/
def runPipeline (env : JsEnv) (entries : List ((List Char) × ParserFn)) (input : List Char)
    (zone : ZoneSpec) : Option ((List Char) × Int) :=
  match entries with
  | [] => none
  | (lbl, f) :: rest =>
    match f env input zone with
    | some d => some (lbl, d)
    | none => runPipeline env rest input zone

/-- The usage-hint message returned on empty input. -/
def emptyInputError : List Char :=
  ("请输入时间内容，例如: now 或 2019-01-30 21:24:44,gmt-7").data

/-- `parseDateInput`: the top-level orchestrator. -/
def parseDateInput (env : JsEnv) (rawInput : List Char) (defaultSourceZone : ZoneSpec) :
    ParseResult :=
  let split := splitInputAndZone env rawInput defaultSourceZone
  let input := split.1
  let sourceZone := split.2
  if input == [] then
    .failure input sourceZone (zoneDisplayName sourceZone) emptyInputError
  else
    match runPipeline env (parserPipeline (detectState input)) input sourceZone with
    | some ld => .success input sourceZone (zoneDisplayName sourceZone) ld.2 ld.1
    | none =>
      .failure input sourceZone (zoneDisplayName sourceZone)
        (("Could not find date format for ").data ++ input)

/-- The date-time portion of the fixed output format, as re-parsed in the
round-trip property. -/
def dtText (Y MO DD HH MI SS : List Char) : List Char :=
  Y ++ '-' :: (MO ++ '-' :: (DD ++ 'T' :: (HH ++ ':' :: (MI ++ ':' :: SS))))

/-- Strip everything from the first space on: the formatted string with the
offset and zone token removed. -/
def stripZoneToken (cs : List Char) : List Char :=
  cs.takeWhile (fun c => c != ' ')

/-- Decidable checker for the claimed output shape
`YYYY-MM-DDTHH:MM:SS ±HH:MM ZONE`: four year digits, zero-padded two-digit
fields, a signed zero-padded offset and a nonempty zone token. -/
def shapeOK (cs : List Char) : Bool :=
  match cs with
  | y1 :: y2 :: y3 :: y4 :: '-' :: m1 :: m2 :: '-' :: d1 :: d2 :: 'T' :: h1 :: h2 :: ':' ::
      n1 :: n2 :: ':' :: s1 :: s2 :: ' ' :: sg :: o1 :: o2 :: ':' :: o3 :: o4 :: ' ' :: rest =>
    y1.isDigit && y2.isDigit && y3.isDigit && y4.isDigit && m1.isDigit && m2.isDigit &&
      d1.isDigit && d2.isDigit && h1.isDigit && h2.isDigit && n1.isDigit && n2.isDigit &&
      s1.isDigit && s2.isDigit && (sg == '+' || sg == '-') && o1.isDigit && o2.isDigit &&
      o3.isDigit && o4.isDigit && !rest.isEmpty
  | _ => false

def sampleEnv : JsEnv :=
  { nowMs := 1700000000000, localZone := ("UTC").data, ianaValid := fun _ => false,
    ianaParts := fun _ _ => ⟨1970, 1, 1, 0, 0, 0⟩, ianaShortName := fun _ _ => none,
    nativeParse := fun _ => none }

def zUTC : ZoneSpec := .fixed 0 (("UTC").data)

/-- Modelled from the spec: the epoch-magnitude heuristic in the spec's own
words, used as the reference side of the refinement claim about
`parseNumeric`. -/
def specEpochHeuristic (s : List Char) : Option Int :=
  let n := digitsVal s
  let ms : Nat :=
    if s.length > 16 then n / 1000000
    else if s.length > 13 then n / 1000
    else if s.length > 10 then n
    else n * 1000
  if ms > 8640000000000000 then none else some (ms : Int)

/-! ## Theorems -/

theorem yoe_div (c q y : Nat) (hc : c ≤ 3) (hq : q ≤ 24) (hy : y ≤ 3) :
    (100 * c + 4 * q + y) / 4 = 25 * c + q ∧ (100 * c + 4 * q + y) / 100 = c := by
  omega

theorem cascade (doe : Nat) (h : doe ≤ 146096) :
    36524 * centuryOf doe + 1461 * quadOf doe + 365 * yIdxOf doe + doyOf doe = doe ∧
    doyOf doe ≤ 365 ∧ yoeOf doe ≤ 399 ∧
    365 * yoeOf doe + yoeOf doe / 4 - yoeOf doe / 100
      = 36524 * centuryOf doe + 1461 * quadOf doe + 365 * yIdxOf doe := by
  have h1 : centuryOf doe ≤ 3 ∧ 36524 * centuryOf doe ≤ doe ∧
      doe - 36524 * centuryOf doe ≤ 36524 := by
    simp only [centuryOf]; omega
  have h2 : quadOf doe ≤ 24 ∧ 1461 * quadOf doe ≤ docOf doe ∧
      docOf doe - 1461 * quadOf doe ≤ 1460 := by
    simp only [quadOf, docOf]
    omega
  have h3 : yIdxOf doe ≤ 3 ∧ 365 * yIdxOf doe ≤ dqOf doe ∧
      dqOf doe - 365 * yIdxOf doe ≤ 365 := by
    have hdq : dqOf doe ≤ 1460 := by
      have : dqOf doe = docOf doe - 1461 * quadOf doe := rfl
      omega
    simp only [yIdxOf]
    omega
  have hdocdef : docOf doe = doe - 36524 * centuryOf doe := rfl
  have hdqdef : dqOf doe = docOf doe - 1461 * quadOf doe := rfl
  have hdoydef : doyOf doe = dqOf doe - 365 * yIdxOf doe := rfl
  have hyoedef : yoeOf doe = 100 * centuryOf doe + 4 * quadOf doe + yIdxOf doe := rfl
  obtain ⟨hdiv4, hdiv100⟩ := yoe_div (centuryOf doe) (quadOf doe) (yIdxOf doe) h1.1 h2.1 h3.1
  rw [hyoedef]
  omega

theorem monthDay (doy : Nat) (h : doy ≤ 365) :
    1 ≤ monthOf doy ∧ monthOf doy ≤ 12 ∧ 1 ≤ domOf doy ∧ domOf doy ≤ 31 ∧
    (153 * mpOf doy + 2) / 5 ≤ doy ∧
    (153 * mpOf doy + 2) / 5 + (domOf doy - 1) = doy ∧
    (monthOf doy ≤ 2 → mpOf doy = monthOf doy + 9) ∧
    (2 < monthOf doy → mpOf doy = monthOf doy - 3) := by
  simp only [monthOf, domOf, mpOf]
  split_ifs <;> omega

theorem doe_decomp (z : Int) :
    (doeOf z : Int) = z + 719468 - eraOf z * 146097 ∧ doeOf z ≤ 146096 := by
  simp only [doeOf, eraOf]
  have h1 : 0 ≤ (z + 719468) % 146097 := Int.emod_nonneg _ (by norm_num)
  have h2 : (z + 719468) % 146097 < 146097 := Int.emod_lt_of_pos _ (by norm_num)
  omega

theorem daysFromCivil_eval (E : Int) (Y M D : Nat) (hY : Y ≤ 399) (hM1 : 1 ≤ M) (hM12 : M ≤ 12) :
    daysFromCivil (E * 400 + Y + (if M ≤ 2 then 1 else 0)) M D
      = E * 146097 + ((365 * Y + Y / 4 - Y / 100 : Nat) : Int)
        + (((153 * (if M ≤ 2 then M + 9 else M - 3) + 2) / 5 : Nat) : Int) + D - 1 - 719468 := by
  have hediv : ((Y : Int) + E * 400) / 400 = E := by omega
  have hemod : ((Y : Int) + E * 400) % 400 = (Y : Int) := by omega
  simp only [daysFromCivil]
  by_cases hM : M ≤ 2
  · have hMi : ((M : Int) ≤ 2) := by exact_mod_cast hM
    simp only [if_pos hM, if_pos hMi]
    have h1 : E * 400 + (Y : Int) + 1 - 1 = (Y : Int) + E * 400 := by ring
    rw [h1, hediv, hemod]
    have h2 : ((Y : Int)).toNat = Y := Int.toNat_natCast Y
    have h3 : ((M : Int) + 9).toNat = M + 9 := by omega
    rw [h2, h3]
    ring
  · have hMi : ¬((M : Int) ≤ 2) := by
      intro hcon; exact hM (by exact_mod_cast hcon)
    simp only [if_neg hM, if_neg hMi]
    have h1 : E * 400 + (Y : Int) + 0 - 0 = (Y : Int) + E * 400 := by ring
    rw [h1, hediv, hemod]
    have h2 : ((Y : Int)).toNat = Y := Int.toNat_natCast Y
    have h3 : ((M : Int) - 3).toNat = M - 3 := by omega
    rw [h2, h3]
    ring

/-- The civil decomposition of a day number is a valid Gregorian date and
converting it back yields the same day number. -/
theorem civil_roundtrip (z : Int) :
    daysFromCivil (civilFromDays z).1 (civilFromDays z).2.1 (civilFromDays z).2.2 = z ∧
    1 ≤ (civilFromDays z).2.1 ∧ (civilFromDays z).2.1 ≤ 12 ∧
    1 ≤ (civilFromDays z).2.2 ∧ (civilFromDays z).2.2 ≤ 31 := by
  obtain ⟨hdz, hdn⟩ := doe_decomp z
  obtain ⟨hsum, hdoy, hyoe, hstart⟩ := cascade (doeOf z) hdn
  obtain ⟨hm1, hm2, hd1, hd2, hmp1, hmp2, hme2, hmg2⟩ := monthDay (doyOf (doeOf z)) hdoy
  simp only [civilFromDays]
  refine ⟨?_, by exact_mod_cast hm1, by exact_mod_cast hm2,
    by exact_mod_cast hd1, by exact_mod_cast hd2⟩
  rw [daysFromCivil_eval (eraOf z) (yoeOf (doeOf z)) (monthOf (doyOf (doeOf z)))
      (domOf (doyOf (doeOf z))) hyoe hm1 hm2]
  by_cases hM : monthOf (doyOf (doeOf z)) ≤ 2
  · simp only [if_pos hM]
    have hmp : mpOf (doyOf (doeOf z)) = monthOf (doyOf (doeOf z)) + 9 := hme2 hM
    rw [← hmp]
    omega
  · simp only [if_neg hM]
    have hmp : mpOf (doyOf (doeOf z)) = monthOf (doyOf (doeOf z)) - 3 := hmg2 (by omega)
    rw [← hmp]
    omega

/-! ## Auxiliary lemmas -/
theorem digitChar10_isDigit (n : Nat) : (digitChar10 n).isDigit = true := by
  rcases n with _|_|_|_|_|_|_|_|_|n <;> simp [digitChar10] <;> decide

theorem charVal_digitChar10 (n : Nat) (h : n ≤ 9) : charVal (digitChar10 n) = n := by
  interval_cases n <;> decide

theorem natDigitsAux_spec (fuel : Nat) : ∀ n, n < fuel →
    natDigitsAux fuel n ≠ [] ∧ (natDigitsAux fuel n).all Char.isDigit = true ∧
    digitsVal (natDigitsAux fuel n) = n := by
  induction fuel with
  | zero => intro n h; omega
  | succ fuel ih =>
    intro n h
    by_cases h10 : n < 10
    · simp [natDigitsAux, h10, digitsVal, digitChar10_isDigit, charVal_digitChar10 n (by omega)]
    · have hrec := ih (n / 10) (by omega)
      simp only [natDigitsAux, if_neg h10]
      refine ⟨by simp, ?_, ?_⟩
      · simp [List.all_append, hrec.2.1, digitChar10_isDigit]
      · simp only [digitsVal, List.foldl_append] at hrec ⊢
        simp [List.foldl, hrec.2.2, charVal_digitChar10 (n % 10) (by omega)]
        omega

theorem natDigits_spec (n : Nat) :
    natDigits n ≠ [] ∧ (natDigits n).all Char.isDigit = true ∧ digitsVal (natDigits n) = n :=
  natDigitsAux_spec (n + 1) n (by omega)

theorem natDigitsAux_irrel (fuel1 : Nat) : ∀ fuel2 n, n < fuel1 → n < fuel2 →
    natDigitsAux fuel1 n = natDigitsAux fuel2 n := by
  induction fuel1 with
  | zero => intro fuel2 n h; omega
  | succ fuel1 ih =>
    intro fuel2 n h1 h2
    match fuel2 with
    | 0 => omega
    | fuel2 + 1 =>
      by_cases h10 : n < 10
      · simp [natDigitsAux, h10]
      · simp only [natDigitsAux, if_neg h10]
        rw [ih fuel2 (n / 10) (by omega) (by omega)]

theorem natDigits_step (n : Nat) (h : ¬ n < 10) :
    natDigits n = natDigits (n / 10) ++ [digitChar10 (n % 10)] := by
  have h1 : natDigits n = natDigitsAux n (n / 10) ++ [digitChar10 (n % 10)] := by
    simp only [natDigits, natDigitsAux, if_neg h]
  rw [h1, natDigitsAux_irrel n (n / 10 + 1) (n / 10) (by omega) (by omega)]
  rfl

theorem natDigits_small (n : Nat) (h : n < 10) : natDigits n = [digitChar10 n] := by
  simp [natDigits, natDigitsAux, h]

theorem natDigits_len1 (n : Nat) (h : n < 10) : (natDigits n).length = 1 := by
  simp [natDigits_small n h]

theorem natDigits_len2 (n : Nat) (h1 : 10 ≤ n) (h2 : n ≤ 99) : (natDigits n).length = 2 := by
  rw [natDigits_step n (by omega)]
  simp [natDigits_len1 (n / 10) (by omega)]

theorem natDigits_len3 (n : Nat) (h1 : 100 ≤ n) (h2 : n ≤ 999) : (natDigits n).length = 3 := by
  rw [natDigits_step n (by omega)]
  simp [natDigits_len2 (n / 10) (by omega) (by omega)]

theorem natDigits_len4 (n : Nat) (h1 : 1000 ≤ n) (h2 : n ≤ 9999) : (natDigits n).length = 4 := by
  rw [natDigits_step n (by omega)]
  simp [natDigits_len3 (n / 10) (by omega) (by omega)]

theorem pad2i_eq (k : Int) (h0 : 0 ≤ k) (h : k < 100) :
    pad2i k = [digitChar10 (k.toNat / 10), digitChar10 (k.toNat % 10)] := by
  by_cases h10 : k.toNat < 10
  · have e1 : k.toNat / 10 = 0 := by omega
    have e2 : k.toNat % 10 = k.toNat := Nat.mod_eq_of_lt h10
    simp only [pad2i, intRepr, if_neg (by omega : ¬ k < 0), natDigits_small k.toNat h10, e1, e2]
    rfl
  · simp only [pad2i, intRepr, if_neg (by omega : ¬ k < 0),
      natDigits_step k.toNat h10, natDigits_small (k.toNat / 10) (by omega)]
    simp

theorem pad2i_spec (k : Int) (h0 : 0 ≤ k) (h : k < 100) :
    (pad2i k).length = 2 ∧ (pad2i k).all Char.isDigit = true ∧
    digitsVal (pad2i k) = k.toNat := by
  rw [pad2i_eq k h0 h]
  refine ⟨rfl, by simp [digitChar10_isDigit], ?_⟩
  simp only [digitsVal, List.foldl]
  rw [charVal_digitChar10 (k.toNat / 10) (by omega), charVal_digitChar10 (k.toNat % 10) (by omega)]
  omega

theorem span_exact (p : Char → Bool) (ds rest : List Char) (h1 : ds.all p = true)
    (h2 : match rest with | [] => True | c :: _ => p c = false) :
    (ds ++ rest).takeWhile p = ds ∧ (ds ++ rest).dropWhile p = rest := by
  induction ds with
  | nil =>
    simp only [List.nil_append]
    match rest with
    | [] => exact ⟨rfl, rfl⟩
    | c :: r =>
      simp only at h2
      simp [List.takeWhile, List.dropWhile, h2]
  | cons d ds ih =>
    simp only [List.all_cons, Bool.and_eq_true] at h1
    have := ih h1.2
    simp [List.takeWhile, List.dropWhile, h1.1, this.1, this.2]

theorem dropWhile_all_neg (p : Char → Bool) (cs : List Char)
    (h : ∀ c ∈ cs, p c = false) : cs.dropWhile p = cs := by
  match cs with
  | [] => rfl
  | c :: r =>
    have := h c (by simp)
    simp [List.dropWhile, this]

theorem jsTrim_eq_self (cs : List Char) (h : ∀ c ∈ cs, jsSpace c = false) :
    jsTrim cs = cs := by
  unfold jsTrim
  rw [dropWhile_all_neg jsSpace cs h]
  rw [dropWhile_all_neg jsSpace cs.reverse (fun c hc => h c (List.mem_reverse.mp hc))]
  exact List.reverse_reverse cs

theorem lastIdxOf_eq_none (c : Char) (cs : List Char) (h : ∀ x ∈ cs, x ≠ c) :
    lastIdxOf c cs = none := by
  induction cs with
  | nil => rfl
  | cons x r ih =>
    have hx : x ≠ c := h x (by simp)
    have hr := ih (fun y hy => h y (by simp [hy]))
    simp [lastIdxOf, hr, hx]

theorem isDigit_toNat (c : Char) : c.isDigit = true ↔ 48 ≤ c.toNat ∧ c.toNat ≤ 57 := by
  simp only [Char.isDigit, Char.toNat, Bool.and_eq_true, decide_eq_true_eq, ge_iff_le]
  exact Iff.rfl

theorem isAlpha_toNat (c : Char) :
    c.isAlpha = true ↔ (65 ≤ c.toNat ∧ c.toNat ≤ 90) ∨ (97 ≤ c.toNat ∧ c.toNat ≤ 122) := by
  simp only [Char.isAlpha, Char.isUpper, Char.isLower, Char.toNat, Bool.or_eq_true,
    Bool.and_eq_true, decide_eq_true_eq, ge_iff_le]
  exact Iff.rfl

theorem digit_beq_lit (c d : Char) (h : c.isDigit = true) (hd : d.isDigit = false) :
    (c == d) = false := by
  rw [beq_eq_false_iff_ne]
  intro he
  subst he
  rw [h] at hd
  cases hd

theorem digit_not_space (c : Char) (h : c.isDigit = true) : jsSpace c = false := by
  simp only [jsSpace, Bool.or_eq_false_iff]
  refine ⟨⟨⟨⟨⟨?_, ?_⟩, ?_⟩, ?_⟩, ?_⟩, ?_⟩ <;> exact digit_beq_lit c _ h (by decide)

theorem digit_asciiLower (c : Char) (h : c.isDigit = true) : asciiLower c = c := by
  have hb := (isDigit_toNat c).mp h
  simp only [asciiLower]
  rw [if_neg]
  omega

theorem digit_not_alpha (c : Char) (h : c.isDigit = true) : c.isAlpha = false := by
  have hb := (isDigit_toNat c).mp h
  by_contra hcon
  have ha := (isAlpha_toNat c).mp (by revert hcon; cases c.isAlpha <;> simp)
  omega

theorem span_all (p : Char → Bool) (ds : List Char) (h1 : ds.all p = true) :
    ds.takeWhile p = ds ∧ ds.dropWhile p = [] := by
  have := span_exact p ds [] h1 trivial
  rwa [List.append_nil] at this

theorem isEmpty_false_of_len (l : List Char) (n : Nat) (h : l.length = n + 1) :
    l.isEmpty = false := by
  match l with
  | [] => simp at h
  | _ :: _ => rfl

theorem timeMatch_on (HH MI SS : List Char)
    (hH : HH.all Char.isDigit = true) (hHlen : HH.length = 2)
    (hM : MI.all Char.isDigit = true) (hMlen : MI.length = 2)
    (hS : SS.all Char.isDigit = true) (hSlen : SS.length = 2) :
    timeMatch (HH ++ ':' :: (MI ++ ':' :: SS)) = some (HH, MI, some SS, none, none) := by
  have s1 := span_exact Char.isDigit HH (':' :: (MI ++ ':' :: SS)) hH
    (show Char.isDigit ':' = false by decide)
  have s2 := span_exact Char.isDigit MI (':' :: SS) hM
    (show Char.isDigit ':' = false by decide)
  have s3 := span_all Char.isDigit SS hS
  simp only [timeMatch, s1.1, s1.2, s2.1, s2.2, s3.1, s3.2,
    isEmpty_false_of_len HH 1 hHlen, hHlen, hMlen, hSlen]
  norm_num

theorem parseDashDate_on_dt (env : JsEnv) (zone : ZoneSpec) (Y MO DD HH MI SS : List Char)
    (hY : Y.all Char.isDigit = true) (hYlen : Y.length = 4)
    (hMO : MO.all Char.isDigit = true) (hMOlen : MO.length = 2)
    (hDD : DD.all Char.isDigit = true) (hDDlen : DD.length = 2)
    (hH : HH.all Char.isDigit = true) (hHlen : HH.length = 2)
    (hM : MI.all Char.isDigit = true) (hMlen : MI.length = 2)
    (hS : SS.all Char.isDigit = true) (hSlen : SS.length = 2) :
    parseDashDate env
      (Y ++ '-' :: (MO ++ '-' :: (DD ++ 'T' :: (HH ++ ':' :: (MI ++ ':' :: SS))))) zone
      = parseComponentsWithMeridiem env (digitsVal Y) (digitsVal MO) (digitsVal DD)
          (digitsVal HH) (digitsVal MI) (digitsVal SS) 0 zone none := by
  have s1 := span_exact Char.isDigit Y ('-' :: (MO ++ '-' :: (DD ++ 'T' :: (HH ++ ':' :: (MI ++ ':' :: SS))))) hY
    (show Char.isDigit '-' = false by decide)
  have s2 := span_exact Char.isDigit MO ('-' :: (DD ++ 'T' :: (HH ++ ':' :: (MI ++ ':' :: SS)))) hMO
    (show Char.isDigit '-' = false by decide)
  have s3 := span_exact Char.isDigit DD ('T' :: (HH ++ ':' :: (MI ++ ':' :: SS))) hDD
    (show Char.isDigit 'T' = false by decide)
  have ht := timeMatch_on HH MI SS hH hHlen hM hMlen hS hSlen
  simp only [parseDashDate, s1.1, s1.2, s2.1, s2.2, s3.1, s3.2, ht, hYlen, hMOlen, hDDlen,
    isEmpty_false_of_len MO 1 hMOlen, isEmpty_false_of_len DD 1 hDDlen]
  norm_num [parseFractionMilliseconds]

theorem msToParts_bounds (t : Int) :
    0 ≤ (msToParts t).hour ∧ (msToParts t).hour ≤ 23 ∧
    0 ≤ (msToParts t).minute ∧ (msToParts t).minute ≤ 59 ∧
    0 ≤ (msToParts t).second ∧ (msToParts t).second ≤ 59 ∧
    1 ≤ (msToParts t).month ∧ (msToParts t).month ≤ 12 ∧
    1 ≤ (msToParts t).day ∧ (msToParts t).day ≤ 31 := by
  obtain ⟨hrt, hm1, hm2, hd1, hd2⟩ := civil_roundtrip (t / 86400000)
  simp only [msToParts]
  have hmsb : (t % 86400000).toNat < 86400000 := by
    have h1 : 0 ≤ t % 86400000 := Int.emod_nonneg _ (by norm_num)
    have h2 : t % 86400000 < 86400000 := Int.emod_lt_of_pos _ (by norm_num)
    omega
  refine ⟨by positivity, ?_, by positivity, ?_, by positivity, ?_, ?_, ?_, ?_, ?_⟩ <;>
    first
      | (exact_mod_cast Nat.le_of_lt_succ (by omega))
      | exact_mod_cast hm1
      | exact_mod_cast hm2
      | exact_mod_cast hd1
      | exact_mod_cast hd2

theorem msToParts_reconstruct (t : Int) (hms : t % 1000 = 0)
    (hy : ¬ (0 ≤ (msToParts t).year ∧ (msToParts t).year ≤ 99)) :
    jsDateUTC (msToParts t).year ((msToParts t).month - 1) (msToParts t).day
      (msToParts t).hour (msToParts t).minute (msToParts t).second 0 = t := by
  obtain ⟨hrt, hm1, hm2, hd1, hd2⟩ := civil_roundtrip (t / 86400000)
  simp only [msToParts] at hy ⊢
  simp only [jsDateUTC, if_neg hy]
  have hmonth : ((((civilFromDays (t / 86400000)).2.1 : Nat) : Int) - 1 + 1)
      = (((civilFromDays (t / 86400000)).2.1 : Nat) : Int) := by ring
  rw [hmonth, hrt]
  have h1 : 0 ≤ t % 86400000 := Int.emod_nonneg _ (by norm_num)
  have h2 : t % 86400000 < 86400000 := Int.emod_lt_of_pos _ (by norm_num)
  have h3 : 86400000 * (t / 86400000) + t % 86400000 = t := Int.ediv_add_emod t 86400000
  omega

theorem isValid_of_decomp (t : Int) (h1 : t.natAbs ≤ maxMs)
    (hy : ¬ (0 ≤ (msToParts t).year ∧ (msToParts t).year ≤ 99)) :
    isValidCalendarDate (msToParts t).year (msToParts t).month (msToParts t).day = true := by
  obtain ⟨hrt, hm1, hm2, hd1, hd2⟩ := civil_roundtrip (t / 86400000)
  obtain ⟨_, _, _, _, _, _, hmo1, hmo2, hdy1, hdy2⟩ := msToParts_bounds t
  simp only [isValidCalendarDate]
  rw [if_neg (by push_neg; omega)]
  have hguess : jsDateUTC (msToParts t).year ((msToParts t).month - 1) (msToParts t).day 0 0 0 0
      = (t / 86400000) * 86400000 := by
    simp only [msToParts] at hy ⊢
    simp only [jsDateUTC, if_neg hy]
    have hmonth : ((((civilFromDays (t / 86400000)).2.1 : Nat) : Int) - 1 + 1)
        = (((civilFromDays (t / 86400000)).2.1 : Nat) : Int) := by ring
    rw [hmonth, hrt]
    ring
  rw [hguess]
  have hdayb : (t / 86400000).natAbs * 86400000 ≤ maxMs := by
    have h1' : 0 ≤ t % 86400000 := Int.emod_nonneg _ (by norm_num)
    have h2' : t % 86400000 < 86400000 := Int.emod_lt_of_pos _ (by norm_num)
    have h3 : 86400000 * (t / 86400000) + t % 86400000 = t := Int.ediv_add_emod t 86400000
    simp only [maxMs] at h1 ⊢
    omega
  have hclip : timeClip ((t / 86400000) * 86400000) = some ((t / 86400000) * 86400000) := by
    simp only [timeClip, if_pos]
    rw [Int.natAbs_mul]
    simpa using hdayb
  rw [hclip]
  have hdiv : (t / 86400000) * 86400000 / 86400000 = t / 86400000 := by
    omega
  dsimp only
  rw [hdiv]
  simp only [msToParts]
  simp

theorem len2_explicit (l : List Char) (h : l.length = 2) : ∃ a b, l = [a, b] := by
  rcases l with _ | ⟨a, _ | ⟨b, _ | ⟨c, r⟩⟩⟩
  · simp at h
  · simp at h
  · exact ⟨a, b, rfl⟩
  · simp at h

theorem len4_explicit (l : List Char) (h : l.length = 4) :
    ∃ a b c d, l = [a, b, c, d] := by
  rcases l with _ | ⟨a, _ | ⟨b, _ | ⟨c, _ | ⟨d, _ | ⟨e, r⟩⟩⟩⟩⟩
  · simp at h
  · simp at h
  · simp at h
  · simp at h
  · exact ⟨a, b, c, d, rfl⟩
  · simp at h

theorem dt_chars (Y MO DD HH MI SS : List Char)
    (hY : Y.all Char.isDigit = true) (hMO : MO.all Char.isDigit = true)
    (hDD : DD.all Char.isDigit = true) (hH : HH.all Char.isDigit = true)
    (hM : MI.all Char.isDigit = true) (hS : SS.all Char.isDigit = true) :
    ∀ c ∈ dtText Y MO DD HH MI SS, c.isDigit = true ∨ c = '-' ∨ c = ':' ∨ c = 'T' := by
  intro c hc
  simp only [dtText, List.mem_append, List.mem_cons] at hc
  rcases hc with h | rfl | h | rfl | h | rfl | h | rfl | h | rfl | h
  · exact Or.inl (List.all_eq_true.mp hY c h)
  · exact Or.inr (Or.inl rfl)
  · exact Or.inl (List.all_eq_true.mp hMO c h)
  · exact Or.inr (Or.inl rfl)
  · exact Or.inl (List.all_eq_true.mp hDD c h)
  · exact Or.inr (Or.inr (Or.inr rfl))
  · exact Or.inl (List.all_eq_true.mp hH c h)
  · exact Or.inr (Or.inr (Or.inl rfl))
  · exact Or.inl (List.all_eq_true.mp hM c h)
  · exact Or.inr (Or.inr (Or.inl rfl))
  · exact Or.inl (List.all_eq_true.mp hS c h)

theorem dt_not_space (Y MO DD HH MI SS : List Char)
    (hY : Y.all Char.isDigit = true) (hMO : MO.all Char.isDigit = true)
    (hDD : DD.all Char.isDigit = true) (hH : HH.all Char.isDigit = true)
    (hM : MI.all Char.isDigit = true) (hS : SS.all Char.isDigit = true) :
    ∀ c ∈ dtText Y MO DD HH MI SS, jsSpace c = false := by
  intro c hc
  rcases dt_chars Y MO DD HH MI SS hY hMO hDD hH hM hS c hc with h | rfl | rfl | rfl
  · exact digit_not_space c h
  · decide
  · decide
  · decide

theorem dt_trim (Y MO DD HH MI SS : List Char)
    (hY : Y.all Char.isDigit = true) (hMO : MO.all Char.isDigit = true)
    (hDD : DD.all Char.isDigit = true) (hH : HH.all Char.isDigit = true)
    (hM : MI.all Char.isDigit = true) (hS : SS.all Char.isDigit = true) :
    jsTrim (dtText Y MO DD HH MI SS) = dtText Y MO DD HH MI SS :=
  jsTrim_eq_self _ (dt_not_space Y MO DD HH MI SS hY hMO hDD hH hM hS)

theorem dt_no_comma (Y MO DD HH MI SS : List Char)
    (hY : Y.all Char.isDigit = true) (hMO : MO.all Char.isDigit = true)
    (hDD : DD.all Char.isDigit = true) (hH : HH.all Char.isDigit = true)
    (hM : MI.all Char.isDigit = true) (hS : SS.all Char.isDigit = true) :
    lastIdxOf ',' (dtText Y MO DD HH MI SS) = none := by
  apply lastIdxOf_eq_none
  intro x hx
  rcases dt_chars Y MO DD HH MI SS hY hMO hDD hH hM hS x hx with h | rfl | rfl | rfl
  · intro he
    subst he
    exact absurd h (by decide)
  · decide
  · decide
  · decide

theorem dt_split (env : JsEnv) (zone : ZoneSpec) (Y MO DD HH MI SS : List Char)
    (hY : Y.all Char.isDigit = true) (hMO : MO.all Char.isDigit = true)
    (hDD : DD.all Char.isDigit = true) (hH : HH.all Char.isDigit = true)
    (hM : MI.all Char.isDigit = true) (hS : SS.all Char.isDigit = true) :
    splitInputAndZone env (dtText Y MO DD HH MI SS) zone = (dtText Y MO DD HH MI SS, zone) := by
  simp only [splitInputAndZone, dt_trim Y MO DD HH MI SS hY hMO hDD hH hM hS,
    dt_no_comma Y MO DD HH MI SS hY hMO hDD hH hM hS]

theorem dt_detect (Y MO DD HH MI SS : List Char)
    (hY : Y.all Char.isDigit = true) (hYlen : Y.length = 4)
    (hMO : MO.all Char.isDigit = true)
    (hDD : DD.all Char.isDigit = true) (hH : HH.all Char.isDigit = true)
    (hM : MI.all Char.isDigit = true) (hS : SS.all Char.isDigit = true) :
    detectState (dtText Y MO DD HH MI SS) = .digitDash := by
  obtain ⟨a, b, c, d, rfl⟩ := len4_explicit Y hYlen
  have ha : a.isDigit = true := List.all_eq_true.mp hY a (by simp)
  have hdash : '-' ∈ dtText [a, b, c, d] MO DD HH MI SS := by
    simp [dtText]
  have hall : (dtText [a, b, c, d] MO DD HH MI SS).all Char.isDigit = false := by
    rw [Bool.eq_false_iff]
    intro hcon
    exact absurd (List.all_eq_true.mp hcon '-' hdash) (by decide)
  have hcontains : (dtText [a, b, c, d] MO DD HH MI SS).contains '-' = true := by
    rw [List.contains_eq_any_beq]
    rw [List.any_eq_true]
    exact ⟨'-', hdash, by decide⟩
  have htrim := dt_trim [a, b, c, d] MO DD HH MI SS hY hMO hDD hH hM hS
  have hshape : dtText [a, b, c, d] MO DD HH MI SS
      = a :: (b :: c :: d :: '-' :: (MO ++ '-' :: (DD ++ 'T' :: (HH ++ ':' :: (MI ++ ':' :: SS))))) := by
    simp [dtText]
  rw [hshape] at hall hcontains
  simp only [detectState]
  rw [htrim, hshape]
  dsimp only
  rw [if_pos ha, if_neg (ne_true_of_eq_false hall), if_pos hcontains]

theorem dt_parseNow (env : JsEnv) (Y MO DD HH MI SS : List Char)
    (hY : Y.all Char.isDigit = true) (hYlen : Y.length = 4)
    (hMO : MO.all Char.isDigit = true)
    (hDD : DD.all Char.isDigit = true) (hH : HH.all Char.isDigit = true)
    (hM : MI.all Char.isDigit = true) (hS : SS.all Char.isDigit = true) :
    parseNow env (dtText Y MO DD HH MI SS) = none := by
  obtain ⟨a, b, c, d, rfl⟩ := len4_explicit Y hYlen
  have ha : a.isDigit = true := List.all_eq_true.mp hY a (by simp)
  have htrim := dt_trim [a, b, c, d] MO DD HH MI SS hY hMO hDD hH hM hS
  have hshape : dtText [a, b, c, d] MO DD HH MI SS
      = a :: (b :: c :: d :: '-' :: (MO ++ '-' :: (DD ++ 'T' :: (HH ++ ':' :: (MI ++ ':' :: SS))))) := by
    simp [dtText]
  simp only [parseNow]
  rw [htrim, hshape]
  dsimp only [startsNowCI]
  rw [digit_asciiLower a ha, digit_beq_lit a 'n' ha (by decide)]
  simp

theorem dt_parseAgo (env : JsEnv) (Y MO DD HH MI SS : List Char)
    (hY : Y.all Char.isDigit = true) (hYlen : Y.length = 4)
    (hMO : MO.all Char.isDigit = true)
    (hDD : DD.all Char.isDigit = true) (hH : HH.all Char.isDigit = true)
    (hM : MI.all Char.isDigit = true) (hS : SS.all Char.isDigit = true) :
    parseAgo env (dtText Y MO DD HH MI SS) = none := by
  have htrim := dt_trim Y MO DD HH MI SS hY hMO hDD hH hM hS
  have s1 := span_exact Char.isDigit Y
    ('-' :: (MO ++ '-' :: (DD ++ 'T' :: (HH ++ ':' :: (MI ++ ':' :: SS))))) hY
    (show Char.isDigit '-' = false by decide)
  simp only [parseAgo]
  rw [htrim]
  simp only [agoMatch, dtText, s1.1, s1.2]
  rw [if_neg (by rw [isEmpty_false_of_len Y 3 hYlen]; exact Bool.false_ne_true)]
  have hsp : (('-' :: (MO ++ '-' :: (DD ++ 'T' :: (HH ++ ':' :: (MI ++ ':' :: SS))))).takeWhile
      jsSpace) = [] := by
    simp [List.takeWhile_cons, jsSpace]
  rw [hsp]
  simp

theorem parseDateInput_dt (env : JsEnv) (zone : ZoneSpec) (Y MO DD HH MI SS : List Char)
    (d : Int)
    (hY : Y.all Char.isDigit = true) (hYlen : Y.length = 4)
    (hMO : MO.all Char.isDigit = true) (hMOlen : MO.length = 2)
    (hDD : DD.all Char.isDigit = true) (hDDlen : DD.length = 2)
    (hH : HH.all Char.isDigit = true) (hHlen : HH.length = 2)
    (hM : MI.all Char.isDigit = true) (hMlen : MI.length = 2)
    (hS : SS.all Char.isDigit = true) (hSlen : SS.length = 2)
    (hsome : parseComponentsWithMeridiem env (digitsVal Y) (digitsVal MO) (digitsVal DD)
      (digitsVal HH) (digitsVal MI) (digitsVal SS) 0 zone none = some d) :
    parseDateInput env (dtText Y MO DD HH MI SS) zone
      = .success (dtText Y MO DD HH MI SS) zone (zoneDisplayName zone) d (("dash").data) := by
  have hne : dtText Y MO DD HH MI SS ≠ [] := by
    obtain ⟨a, b, c, dd, rfl⟩ := len4_explicit Y hYlen
    simp [dtText]
  have hdash : parseDashDate env (dtText Y MO DD HH MI SS) zone = some d := by
    rw [show dtText Y MO DD HH MI SS
      = Y ++ '-' :: (MO ++ '-' :: (DD ++ 'T' :: (HH ++ ':' :: (MI ++ ':' :: SS)))) from rfl]
    rw [parseDashDate_on_dt env zone Y MO DD HH MI SS hY hYlen hMO hMOlen hDD hDDlen
      hH hHlen hM hMlen hS hSlen]
    exact hsome
  simp only [parseDateInput, dt_split env zone Y MO DD HH MI SS hY hMO hDD hH hM hS]
  rw [if_neg (by rw [beq_eq_false_iff_ne.mpr hne]; exact Bool.false_ne_true)]
  rw [dt_detect Y MO DD HH MI SS hY hYlen hMO hDD hH hM hS]
  simp only [parserPipeline, runPipeline,
    dt_parseNow env Y MO DD HH MI SS hY hYlen hMO hDD hH hM hS,
    dt_parseAgo env Y MO DD HH MI SS hY hYlen hMO hDD hH hM hS, hdash]

theorem toInstant_fixed (env : JsEnv) (c : DateComponents) (off : Int) (lbl : List Char) :
    toInstantFromComponents env c (.fixed off lbl)
      = match timeClip (jsDateUTC c.year (c.month - 1) c.day (c.hour.getD 0) (c.minute.getD 0)
          (c.second.getD 0) (c.millisecond.getD 0)) with
        | none => none
        | some g => timeClip (g - off * 60000) := rfl

theorem parseCWM_decomp (env : JsEnv) (off : Int) (lbl : List Char) (t : Int)
    (h1 : t.natAbs ≤ maxMs) (h2 : (t + off * 60000).natAbs ≤ maxMs) (h3 : t % 1000 = 0)
    (h4 : 1000 ≤ (msToParts (t + off * 60000)).year) :
    parseComponentsWithMeridiem env (msToParts (t + off * 60000)).year
      (msToParts (t + off * 60000)).month (msToParts (t + off * 60000)).day
      (msToParts (t + off * 60000)).hour (msToParts (t + off * 60000)).minute
      (msToParts (t + off * 60000)).second 0 (.fixed off lbl) none = some t := by
  set s := t + off * 60000 with hs
  obtain ⟨hh0, hh23, hn0, hn59, hs0, hs59, hmo1, hmo12, hd1, hd31⟩ := msToParts_bounds s
  have hy : ¬ (0 ≤ (msToParts s).year ∧ (msToParts s).year ≤ 99) := by omega
  have hsmod : s % 1000 = 0 := by omega
  have hvalid := isValid_of_decomp s h2 hy
  have hrec := msToParts_reconstruct s hsmod hy
  simp only [parseComponentsWithMeridiem, applyMeridiem]
  simp only [buildDateFromComponents, Option.getD_some, hvalid]
  rw [if_neg (by simp)]
  rw [if_neg (by omega)]
  rw [if_neg (by omega)]
  rw [toInstant_fixed]
  simp only [Option.getD_some]
  rw [hrec]
  have hclip : timeClip s = some s := by
    simp only [timeClip, if_pos h2]
  rw [hclip]
  dsimp only
  have hsub : s - off * 60000 = t := by omega
  rw [hsub]
  simp only [timeClip, if_pos h1]

theorem formatDateString_shape (parts : DateParts) (off : Int) (tok : List Char)
    (hy1 : 1000 ≤ parts.year) (hy2 : parts.year ≤ 9999)
    (hmo0 : 0 ≤ parts.month) (hmo : parts.month < 100)
    (hd0 : 0 ≤ parts.day) (hd : parts.day < 100)
    (hh0 : 0 ≤ parts.hour) (hh : parts.hour < 100)
    (hn0 : 0 ≤ parts.minute) (hn : parts.minute < 100)
    (hs0 : 0 ≤ parts.second) (hs : parts.second < 100)
    (hoff : off.natAbs ≤ 1439) (htok : tok ≠ []) :
    shapeOK (formatDateString parts off tok) = true := by
  have hiy : intRepr parts.year = natDigits parts.year.toNat := by
    simp only [intRepr, if_neg (by omega : ¬ parts.year < 0)]
  obtain ⟨hne, hdig, hval⟩ := natDigits_spec parts.year.toNat
  have hlen4 : (natDigits parts.year.toNat).length = 4 :=
    natDigits_len4 parts.year.toNat (by omega) (by omega)
  obtain ⟨a, b, c, d, he⟩ := len4_explicit _ hlen4
  rw [he] at hdig
  simp only [List.all_cons, List.all_nil, Bool.and_eq_true, Bool.and_true] at hdig
  obtain ⟨ha, hb, hc, hd'⟩ := hdig
  have hm := pad2i_eq parts.month hmo0 hmo
  have hdm := pad2i_eq parts.day hd0 hd
  have hhm := pad2i_eq parts.hour hh0 hh
  have hnm := pad2i_eq parts.minute hn0 hn
  have hsm := pad2i_eq parts.second hs0 hs
  have hoh := pad2i_eq ((off.natAbs / 60 : Nat) : Int) (by positivity) (by omega)
  have hom := pad2i_eq ((off.natAbs % 60 : Nat) : Int) (by positivity) (by omega)
  rcases tok with _ | ⟨tc, tr⟩
  · exact absurd rfl htok
  simp only [formatDateString, formatOffset, hiy, he, hm, hdm, hhm, hnm, hsm, hoh, hom]
  by_cases hsgn : 0 ≤ off
  · rw [if_pos hsgn]
    simp only [List.cons_append, List.nil_append, shapeOK]
    simp [ha, hb, hc, hd', digitChar10_isDigit]
  · rw [if_neg hsgn]
    simp only [List.cons_append, List.nil_append, shapeOK]
    simp [ha, hb, hc, hd', digitChar10_isDigit]

theorem format_fixed_dt (env : JsEnv) (t off : Int) (lbl : List Char)
    (h2 : (t + off * 60000).natAbs ≤ maxMs)
    (h4 : 1000 ≤ (msToParts (t + off * 60000)).year) :
    formatInstantForZone env t (.fixed off lbl)
      = dtText (natDigits (msToParts (t + off * 60000)).year.toNat)
          (pad2i (msToParts (t + off * 60000)).month) (pad2i (msToParts (t + off * 60000)).day)
          (pad2i (msToParts (t + off * 60000)).hour) (pad2i (msToParts (t + off * 60000)).minute)
          (pad2i (msToParts (t + off * 60000)).second)
        ++ ' ' :: (formatOffset off ++ ' ' :: lbl) := by
  have hclip : timeClip (t + off * 60000) = some (t + off * 60000) := by
    simp only [timeClip, if_pos h2]
  simp only [formatInstantForZone, hclip]
  have hiy : intRepr (msToParts (t + off * 60000)).year
      = natDigits (msToParts (t + off * 60000)).year.toNat := by
    simp only [intRepr, if_neg (by omega : ¬ (msToParts (t + off * 60000)).year < 0)]
  simp only [formatDateString, hiy, dtText, List.append_assoc, List.cons_append]

theorem strip_dt (Y MO DD HH MI SS R : List Char)
    (hY : Y.all Char.isDigit = true) (hMO : MO.all Char.isDigit = true)
    (hDD : DD.all Char.isDigit = true) (hH : HH.all Char.isDigit = true)
    (hM : MI.all Char.isDigit = true) (hS : SS.all Char.isDigit = true) :
    stripZoneToken (dtText Y MO DD HH MI SS ++ ' ' :: R) = dtText Y MO DD HH MI SS := by
  have hall : (dtText Y MO DD HH MI SS).all (fun c => c != ' ') = true := by
    rw [List.all_eq_true]
    intro c hc
    rcases dt_chars Y MO DD HH MI SS hY hMO hDD hH hM hS c hc with h | rfl | rfl | rfl
    · rw [bne_iff_ne]
      intro he
      subst he
      exact absurd h (by decide)
    · decide
    · decide
    · decide
  have := span_exact (fun c => c != ' ') (dtText Y MO DD HH MI SS) (' ' :: R) hall
    (show (' ' != ' ') = false by decide)
  exact this.1

/-- C9 (amended): for a fixed zone and a whole-second instant within the clip
range whose zone-shifted reading has a four-digit year, formatting the instant
and re-parsing the formatted string with the zone token stripped and the same
fixed zone supplied yields the same instant exactly.  (The unamended claim
fails: the formatter emits whole seconds only, so sub-second instants are
truncated by the round trip.) -/
theorem claim_c9 (env : JsEnv) (t off : Int) (lbl : List Char)
    (h1 : t.natAbs ≤ maxMs) (h2 : (t + off * 60000).natAbs ≤ maxMs)
    (h3 : t % 1000 = 0)
    (h4 : 1000 ≤ (msToParts (t + off * 60000)).year)
    (h5 : (msToParts (t + off * 60000)).year ≤ 9999) :
    (parseDateInput env (stripZoneToken (formatInstantForZone env t (.fixed off lbl)))
      (.fixed off lbl)).instantOf = some t := by
  obtain ⟨hh0, hh23, hn0, hn59, hs0, hs59, hmo1, hmo12, hd1, hd31⟩ :=
    msToParts_bounds (t + off * 60000)
  obtain ⟨hYne, hYdig, hYval⟩ := natDigits_spec (msToParts (t + off * 60000)).year.toNat
  have hYlen : (natDigits (msToParts (t + off * 60000)).year.toNat).length = 4 :=
    natDigits_len4 _ (by omega) (by omega)
  obtain ⟨hMOlen, hMOdig, hMOval⟩ :=
    pad2i_spec (msToParts (t + off * 60000)).month (by omega) (by omega)
  obtain ⟨hDDlen, hDDdig, hDDval⟩ :=
    pad2i_spec (msToParts (t + off * 60000)).day (by omega) (by omega)
  obtain ⟨hHlen, hHdig, hHval⟩ :=
    pad2i_spec (msToParts (t + off * 60000)).hour (by omega) (by omega)
  obtain ⟨hMlen, hMdig, hMval⟩ :=
    pad2i_spec (msToParts (t + off * 60000)).minute (by omega) (by omega)
  obtain ⟨hSlen, hSdig, hSval⟩ :=
    pad2i_spec (msToParts (t + off * 60000)).second (by omega) (by omega)
  rw [format_fixed_dt env t off lbl h2 h4]
  rw [strip_dt _ _ _ _ _ _ _ hYdig hMOdig hDDdig hHdig hMdig hSdig]
  have hsome : parseComponentsWithMeridiem env
      (digitsVal (natDigits (msToParts (t + off * 60000)).year.toNat))
      (digitsVal (pad2i (msToParts (t + off * 60000)).month))
      (digitsVal (pad2i (msToParts (t + off * 60000)).day))
      (digitsVal (pad2i (msToParts (t + off * 60000)).hour))
      (digitsVal (pad2i (msToParts (t + off * 60000)).minute))
      (digitsVal (pad2i (msToParts (t + off * 60000)).second)) 0 (.fixed off lbl) none
      = some t := by
    rw [hYval, hMOval, hDDval, hHval, hMval, hSval]
    rw [Int.toNat_of_nonneg (by omega), Int.toNat_of_nonneg (by omega),
      Int.toNat_of_nonneg (by omega), Int.toNat_of_nonneg (by omega),
      Int.toNat_of_nonneg (by omega), Int.toNat_of_nonneg (by omega)]
    exact parseCWM_decomp env off lbl t h1 h2 h3 h4
  rw [parseDateInput_dt env (.fixed off lbl) _ _ _ _ _ _ t hYdig hYlen hMOdig hMOlen
    hDDdig hDDlen hHdig hHlen hMdig hMlen hSdig hSlen hsome]
  rfl

/-- C7: a two-digit year expands to 1900+v when v ≥ 69 and to 2000+v when
v ≤ 68, so 69 means 1969 and 68 means 2068. -/
theorem claim_c7 (v : Int) (h : 0 ≤ v ∧ v ≤ 99) :
    (expandTwoDigitYear v = if 69 ≤ v then 1900 + v else 2000 + v) ∧
    expandTwoDigitYear 69 = 1969 ∧ expandTwoDigitYear 68 = 2068 ∧
    expandTwoDigitYear 0 = 2000 := by
  refine ⟨?_, by decide, by decide, by decide⟩
  simp only [expandTwoDigitYear, ge_iff_le]

theorem claim_c7_witness :
    (0 ≤ (69 : Int) ∧ (69 : Int) ≤ 99) ∧ expandTwoDigitYear 69 = 1969 :=
  ⟨by decide, (claim_c7 69 (by decide)).2.1⟩

/-- C10: meridiem handling — absent meridiem leaves the hour unchanged; with a
meridiem present hours outside 1..12 are rejected; AM maps 12 to 0 and keeps
1..11; PM keeps 12 and adds 12 to 1..11. -/
theorem claim_c10 (hour : Int) (m : List Char) :
    applyMeridiem hour none = some hour ∧
    ((hour < 1 ∨ 12 < hour) → applyMeridiem hour (some m) = none) ∧
    (m.map asciiUpper = ['A', 'M'] →
      applyMeridiem 12 (some m) = some 0 ∧
      (1 ≤ hour → hour ≤ 11 → applyMeridiem hour (some m) = some hour)) ∧
    (m.map asciiUpper = ['P', 'M'] →
      applyMeridiem 12 (some m) = some 12 ∧
      (1 ≤ hour → hour ≤ 11 → applyMeridiem hour (some m) = some (hour + 12))) ∧
    (∀ (env : JsEnv) (y mo d mi s ms : Int) (zone : ZoneSpec) (mer : Option (List Char)),
      applyMeridiem hour mer = none →
        parseComponentsWithMeridiem env y mo d hour mi s ms zone mer = none) ∧
    (∀ (env : JsEnv) (y mo d mi s ms : Int) (zone : ZoneSpec) (mer : Option (List Char))
        (h' : Int), applyMeridiem hour mer = some h' →
      parseComponentsWithMeridiem env y mo d hour mi s ms zone mer
        = buildDateFromComponents env
            { year := y, month := mo, day := d, hour := some h', minute := some mi,
              second := some s, millisecond := some ms } zone) := by
  refine ⟨rfl, ?_, ?_, ?_, ?_, ?_⟩
  · intro hrange
    simp only [applyMeridiem]
    rw [if_pos (by omega)]
  · intro hAM
    constructor
    · simp only [applyMeridiem, hAM]
      rw [if_neg (by omega)]
      simp
    · intro hge hle
      simp only [applyMeridiem, hAM]
      rw [if_neg (by omega)]
      have : (hour == 12) = false := by
        rw [beq_eq_false_iff_ne]
        omega
      simp [this]
  · intro hPM
    constructor
    · simp only [applyMeridiem, hPM]
      rw [if_neg (by omega)]
      have hne : (['P', 'M'] == ['A', 'M']) = false := by decide
      simp
    · intro hge hle
      simp only [applyMeridiem, hPM]
      rw [if_neg (by omega)]
      have : (hour == 12) = false := by
        rw [beq_eq_false_iff_ne]
        omega
      simp [this]
  · intro env y mo d mi s ms zone mer hnone
    simp only [parseComponentsWithMeridiem, hnone]
  · intro env y mo d mi s ms zone mer h' hsome
    simp only [parseComponentsWithMeridiem, hsome]

theorem claim_c10_witness :
    (("am").data.map asciiUpper = ['A', 'M']) ∧ applyMeridiem 12 (some (("am").data)) = some 0 :=
  ⟨by decide, ((claim_c10 12 (("am").data)).2.2.1 (by decide)).1⟩

/-- C6: for a fixed zone, the instant computed from wall-clock components is
the UTC interpretation of those components minus the zone offset (in
milliseconds); the concrete conjunct checks the spec's example
"2019-01-30 21:24:44,gmt-7" parsing to 2019-01-31T04:24:44Z. -/
theorem claim_c6 (env : JsEnv) (c : DateComponents) (off : Int) (lbl : List Char)
    (hmo : 1 ≤ c.month ∧ c.month ≤ 12) :
    toInstantFromComponents env c (.fixed off lbl)
      = (timeClip (jsDateUTC c.year (c.month - 1) c.day (c.hour.getD 0) (c.minute.getD 0)
          (c.second.getD 0) (c.millisecond.getD 0))).bind
          (fun g => timeClip (g - off * 60000)) ∧
    parseDateInput sampleEnv (("2019-01-30 21:24:44,gmt-7").data) zUTC
      = .success (("2019-01-30 21:24:44").data) (.fixed (-420) (("UTC-07:00").data))
          (("UTC-07:00").data) 1548908684000 (("dash").data) ∧
    msToParts 1548908684000 = ⟨2019, 1, 31, 4, 24, 44⟩ := by
  refine ⟨?_, by decide, by decide⟩
  rw [toInstant_fixed]
  cases timeClip (jsDateUTC c.year (c.month - 1) c.day (c.hour.getD 0) (c.minute.getD 0)
      (c.second.getD 0) (c.millisecond.getD 0)) <;> rfl

theorem claim_c6_witness :
    (1 ≤ (5 : Int) ∧ (5 : Int) ≤ 12) ∧
    parseDateInput sampleEnv (("2019-01-30 21:24:44,gmt-7").data) zUTC
      = .success (("2019-01-30 21:24:44").data) (.fixed (-420) (("UTC-07:00").data))
          (("UTC-07:00").data) 1548908684000 (("dash").data) :=
  ⟨by decide,
    (claim_c6 sampleEnv { year := 2019, month := 5, day := 1 } 0 (("UTC").data)
      (by decide)).2.1⟩

theorem isEmpty_false_of_ne (l : List Char) (h : l ≠ []) : l.isEmpty = false := by
  cases l with
  | nil => exact absurd rfl h
  | cons a r => rfl

/-- C1: on all-digit input that is not one of the special calendar forms
(length 14, 8 or 4 starting with '2'), `parseNumeric` realizes the epoch
heuristic: 14 digits are epoch milliseconds, 8 digits are epoch seconds taken
times 1000, other lengths are seconds when the value times 1000 stays within
the clip range and milliseconds otherwise; the concrete conjuncts show the
spec's four example magnitudes all parse to the same instant. -/
theorem claim_c1 (env : JsEnv) (zone : ZoneSpec) (s : List Char)
    (hne : s ≠ []) (hdig : s.all Char.isDigit = true)
    (h14 : ¬ (s.length = 14 ∧ s.take 1 = ['2']))
    (h8 : ¬ (s.length = 8 ∧ s.take 1 = ['2']))
    (h4 : ¬ (s.length = 4 ∧ s.take 1 = ['2'])) :
    parseNumeric env s zone = specEpochHeuristic s ∧
    parseNumeric sampleEnv (("1548854618").data) zUTC = some 1548854618000 ∧
    parseNumeric sampleEnv (("1548854618000").data) zUTC = some 1548854618000 ∧
    parseNumeric sampleEnv (("1548854618000000").data) zUTC = some 1548854618000 ∧
    parseNumeric sampleEnv (("1548854618000000000").data) zUTC = some 1548854618000 := by
  refine ⟨?_, by decide, by decide, by decide, by decide⟩
  have e14 : (s.length == 14 && s.take 1 == ['2']) = false := by
    rw [Bool.eq_false_iff]
    intro hcon
    rw [Bool.and_eq_true, beq_iff_eq, beq_iff_eq] at hcon
    exact h14 hcon
  have e8 : (s.length == 8 && s.take 1 == ['2']) = false := by
    rw [Bool.eq_false_iff]
    intro hcon
    rw [Bool.and_eq_true, beq_iff_eq, beq_iff_eq] at hcon
    exact h8 hcon
  have e4 : (s.length == 4 && s.take 1 == ['2']) = false := by
    rw [Bool.eq_false_iff]
    intro hcon
    rw [Bool.and_eq_true, beq_iff_eq, beq_iff_eq] at hcon
    exact h4 hcon
  simp only [parseNumeric, isEmpty_false_of_ne s hne, hdig, e14, e8, e4, specEpochHeuristic,
    maxMs, Bool.not_true, Bool.or_false, Bool.false_eq_true, if_false]

theorem claim_c1_witness :
    ((("1548854618").data ≠ []) ∧ (("1548854618").data.all Char.isDigit = true)) ∧
    parseNumeric sampleEnv (("1548854618").data) zUTC = some 1548854618000 :=
  ⟨⟨by decide, by decide⟩,
    (claim_c1 sampleEnv zUTC (("1548854618").data) (by decide) (by decide) (by decide)
      (by decide) (by decide)).2.1⟩

/-- C2: a POSIX `Etc/GMT±H` zone name with `H ≤ 23` resolves to a fixed zone
whose offset has the sign REVERSED relative to the name (Etc/GMT+7 means
UTC-07:00), while `H > 23` resolves to no fixed zone (and no zone at all when
the environment rejects the name as an IANA identifier). -/
theorem claim_c2 (env : JsEnv) (sign : Char) (hs : List Char)
    (hsign : sign = '+' ∨ sign = '-') (hdig : hs.all Char.isDigit = true)
    (hlen1 : 1 ≤ hs.length) (hlen2 : hs.length ≤ 2) :
    (digitsVal hs ≤ 23 →
      parseZone env (("Etc/GMT").data ++ sign :: hs)
        = some (.fixed ((if sign == '+' then (-1 : Int) else 1) * (digitsVal hs) * 60)
            (utcLabelOf ((if sign == '+' then (-1 : Int) else 1) * (digitsVal hs) * 60)))) ∧
    (23 < digitsVal hs →
      parseFixedOffset (("Etc/GMT").data ++ sign :: hs) = none ∧
      (env.ianaValid (("Etc/GMT").data ++ sign :: hs) = false →
        parseZone env (("Etc/GMT").data ++ sign :: hs) = none)) ∧
    parseZone sampleEnv (("Etc/GMT+7").data) = some (.fixed (-420) (("UTC-07:00").data)) ∧
    parseZone sampleEnv (("Etc/GMT-5").data) = some (.fixed 300 (("UTC+05:00").data)) := by
  have hshape : ("Etc/GMT").data ++ sign :: hs
      = 'E' :: 't' :: 'c' :: '/' :: 'G' :: 'M' :: 'T' :: sign :: hs := rfl
  have hsignb : (sign == '+' || sign == '-') = true := by
    rcases hsign with rfl | rfl <;> decide
  have hnosp : ∀ c ∈ ("Etc/GMT").data ++ sign :: hs, jsSpace c = false := by
    intro c hc
    rw [hshape] at hc
    simp only [List.mem_cons] at hc
    rcases hc with rfl | rfl | rfl | rfl | rfl | rfl | rfl | rfl | hmem
    · decide
    · decide
    · decide
    · decide
    · decide
    · decide
    · decide
    · rcases hsign with rfl | rfl <;> decide
    · exact digit_not_space c (List.all_eq_true.mp hdig c hmem)
  have htrim : jsTrim (("Etc/GMT").data ++ sign :: hs) = ("Etc/GMT").data ++ sign :: hs :=
    jsTrim_eq_self _ hnosp
  have hval : parseFixedOffset (("Etc/GMT").data ++ sign :: hs)
      = (if ((digitsVal hs : Int) > 23) then none
         else some (.fixed ((if sign == '+' then (-1 : Int) else 1) * (digitsVal hs) * 60)
           (utcLabelOf ((if sign == '+' then (-1 : Int) else 1) * (digitsVal hs) * 60)))) := by
    have hetc : etcMatch (("Etc/GMT").data ++ sign :: hs) = some (sign, hs) := by
      rw [hshape]
      simp only [etcMatch]
      rw [if_pos]
      simp only [Bool.and_eq_true, hsignb, hdig, isEmpty_false_of_ne hs
        (by intro he; rw [he] at hlen1; simp at hlen1)]
      simp [hlen2]
      decide
    simp only [parseFixedOffset, hetc]
  have htrimL : jsTrim ('E' :: 't' :: 'c' :: '/' :: 'G' :: 'M' :: 'T' :: sign :: hs)
      = 'E' :: 't' :: 'c' :: '/' :: 'G' :: 'M' :: 'T' :: sign :: hs := by
    rw [← hshape]
    exact htrim
  have hne1 : (('E' :: 't' :: 'c' :: '/' :: 'G' :: 'M' :: 'T' :: sign :: hs)
      == ([] : List Char)) = false := rfl
  have hloc : ciIs ('E' :: 't' :: 'c' :: '/' :: 'G' :: 'M' :: 'T' :: sign :: hs)
      (("local").data) = false := rfl
  have hutc : ciIs ('E' :: 't' :: 'c' :: '/' :: 'G' :: 'M' :: 'T' :: sign :: hs)
      (("utc").data) = false := rfl
  have hgmt : ciIs ('E' :: 't' :: 'c' :: '/' :: 'G' :: 'M' :: 'T' :: sign :: hs)
      (("gmt").data) = false := rfl
  have hz : ciIs ('E' :: 't' :: 'c' :: '/' :: 'G' :: 'M' :: 'T' :: sign :: hs)
      (("z").data) = false := rfl
  rw [hshape] at hval ⊢
  refine ⟨?_, ?_, by decide, by decide⟩
  · intro hle
    have hfix : parseFixedOffset ('E' :: 't' :: 'c' :: '/' :: 'G' :: 'M' :: 'T' :: sign :: hs)
        = some (.fixed ((if sign == '+' then (-1 : Int) else 1) * (digitsVal hs) * 60)
            (utcLabelOf ((if sign == '+' then (-1 : Int) else 1) * (digitsVal hs) * 60))) := by
      rw [hval, if_neg (by omega)]
    simp only [parseZone, htrimL, hne1, hloc, hutc, hgmt, hz, hfix]
    simp
  · intro hgt
    have hfix : parseFixedOffset ('E' :: 't' :: 'c' :: '/' :: 'G' :: 'M' :: 'T' :: sign :: hs)
        = none := by
      rw [hval, if_pos (by omega)]
    refine ⟨hfix, ?_⟩
    intro hiv
    simp only [parseZone, htrimL, hne1, hloc, hutc, hgmt, hz, hfix, hiv]
    simp

theorem claim_c2_witness :
    (('+' = '+' ∨ '+' = '-') ∧ (['7'].all Char.isDigit = true) ∧ digitsVal ['7'] ≤ 23) ∧
    parseZone sampleEnv (("Etc/GMT").data ++ '+' :: ['7'])
      = some (.fixed (-420) (("UTC-07:00").data)) := by
  refine ⟨⟨Or.inl rfl, by decide, by decide⟩, ?_⟩
  have h := (claim_c2 sampleEnv '+' ['7'] (Or.inl rfl) (by decide) (by decide) (by decide)).1
    (by decide)
  rw [h]
  decide

theorem findSome2 {α : Type} (f : α → Option Int) (x y : α) :
    List.findSome? f [x, y] = (match f x with | some d => some d | none => f y) := by
  cases h : f x <;> cases h2 : f y <;> simp [List.findSome?, h, h2]

/-- C3: on a matched slash date with all groups at most two digits,
`parseSlashDate` tries month/day/year first and falls back to year/month/day
only when the first interpretation yields no valid date; the concrete conjuncts
show "05/13/09" resolving by the second interpretation because month 13 is
rejected by the first. -/
theorem claim_c3 (env : JsEnv) (zone : ZoneSpec) (input : List Char)
    (a b c : List Char)
    (tg : Option ((List Char) × (List Char) × Option (List Char) × Option (List Char) ×
      Option (List Char)))
    (hm : slashMatch input = some (a, b, c, tg))
    (ha : a.length ≤ 2) (hb : b.length ≤ 2) (hc : c.length ≤ 2) :
    ((parseSlashDate env input zone
      = (match parseComponentsWithMeridiem env (expandTwoDigitYear (digitsVal a))
          (digitsVal b) (digitsVal c)
          (match tg with | some t => ((digitsVal t.1 : Nat) : Int) | none => 0)
          (match tg with | some t => ((digitsVal t.2.1 : Nat) : Int) | none => 0)
          (match tg with
           | some t => ((t.2.2.1.map (fun ss => ((digitsVal ss : Nat) : Int))).getD 0)
           | none => 0)
          (match tg with | some t => parseFractionMilliseconds t.2.2.2.1 | none => 0)
          zone (match tg with | some t => t.2.2.2.2 | none => none) with
        | some d => some d
        | none => parseComponentsWithMeridiem env (expandTwoDigitYear (digitsVal c))
            (digitsVal a) (digitsVal b)
            (match tg with | some t => ((digitsVal t.1 : Nat) : Int) | none => 0)
            (match tg with | some t => ((digitsVal t.2.1 : Nat) : Int) | none => 0)
            (match tg with
             | some t => ((t.2.2.1.map (fun ss => ((digitsVal ss : Nat) : Int))).getD 0)
             | none => 0)
            (match tg with | some t => parseFractionMilliseconds t.2.2.2.1 | none => 0)
            zone (match tg with | some t => t.2.2.2.2 | none => none))) ∧
    parseSlashDate sampleEnv (("05/13/09").data) zUTC = some 1242172800000 ∧
    parseComponentsWithMeridiem sampleEnv 2005 13 9 0 0 0 0 zUTC none = none ∧
    parseComponentsWithMeridiem sampleEnv 2009 5 13 0 0 0 0 zUTC none = some 1242172800000) := by
  refine ⟨?_, by decide, by decide, by decide⟩
  have e4a : (a.length == 4) = false := by
    rw [beq_eq_false_iff_ne]
    omega
  have e4c : (c.length == 4) = false := by
    rw [beq_eq_false_iff_ne]
    omega
  rcases tg with _ | ⟨hh, mm, ss, ff, mer⟩ <;>
    (simp only [parseSlashDate, hm, e4a, e4c]
     simp [ha, hb, hc, findSome2])

theorem claim_c3_witness :
    slashMatch (("05/13/09").data)
      = some ((("05").data), (("13").data), (("09").data), none) ∧
    parseSlashDate sampleEnv (("05/13/09").data) zUTC = some 1242172800000 :=
  ⟨rfl, (claim_c3 sampleEnv zUTC (("05/13/09").data) (("05").data) (("13").data)
      (("09").data) none rfl (by decide) (by decide) (by decide)).2.1⟩

/-- C4: the zone-suffix splitter returns the whole trimmed string with the default
zone when the trimmed input has no comma or its last comma is the first character;
when the substring after the last comma resolves as a zone, the trimmed left part
and that zone are returned; when it fails to resolve, the entire trimmed string
(comma included) is kept with the default zone. -/
theorem claim_c4 (env : JsEnv) (rawInput : List Char) (defZ : ZoneSpec) :
    ((lastIdxOf ',' (jsTrim rawInput) = none ∨ lastIdxOf ',' (jsTrim rawInput) = some 0) →
      splitInputAndZone env rawInput defZ = (jsTrim rawInput, defZ)) ∧
    (∀ i, lastIdxOf ',' (jsTrim rawInput) = some i → i ≠ 0 →
      (parseZone env (jsTrim ((jsTrim rawInput).drop (i + 1))) = none →
        splitInputAndZone env rawInput defZ = (jsTrim rawInput, defZ)) ∧
      (∀ z, parseZone env (jsTrim ((jsTrim rawInput).drop (i + 1))) = some z →
        splitInputAndZone env rawInput defZ = (jsTrim ((jsTrim rawInput).take i), z))) := by
  constructor
  · rintro (h | h) <;> simp [splitInputAndZone, h]
  · intro i hi hne
    constructor
    · intro hz
      simp [splitInputAndZone, hi, hz, hne]
    · intro z hz
      simp [splitInputAndZone, hi, hz, hne]

theorem claim_c4_witness :
    splitInputAndZone sampleEnv (("2019-01-30 21:24:44,gmt-7").data) zUTC
      = (jsTrim ((jsTrim (("2019-01-30 21:24:44,gmt-7").data)).take 19),
         .fixed (-420) (("UTC-07:00").data)) :=
  ((claim_c4 sampleEnv (("2019-01-30 21:24:44,gmt-7").data) zUTC).2 19 (by decide)
      (by decide)).2 (.fixed (-420) (("UTC-07:00").data)) (by decide)

/-- C5: `parseDateInput` always yields either a success or a failure; empty
remaining text gives the usage-hint failure with the resolved zone label; pipeline
exhaustion gives the failure message "Could not find date format for " followed by
the text; the first pipeline entry producing an instant gives a success carrying
that entry's label as the matched pattern. -/
theorem claim_c5 (env : JsEnv) (rawInput : List Char) (defZ : ZoneSpec) :
    (∀ input sz, splitInputAndZone env rawInput defZ = (input, sz) →
      (input = [] →
        parseDateInput env rawInput defZ
          = .failure input sz (zoneDisplayName sz) emptyInputError) ∧
      (input ≠ [] → runPipeline env (parserPipeline (detectState input)) input sz = none →
        parseDateInput env rawInput defZ
          = .failure input sz (zoneDisplayName sz)
              ((("Could not find date format for ").data ++ input))) ∧
      (∀ lbl d, runPipeline env (parserPipeline (detectState input)) input sz = some (lbl, d) →
        input ≠ [] →
        parseDateInput env rawInput defZ
          = .success input sz (zoneDisplayName sz) d lbl)) ∧
    ((∃ i z lb d p, parseDateInput env rawInput defZ = .success i z lb d p) ∨
     (∃ i z lb m, parseDateInput env rawInput defZ = .failure i z lb m)) := by
  constructor
  · intro input sz hsplit
    refine ⟨?_, ?_, ?_⟩
    · intro he
      simp [parseDateInput, hsplit, he]
    · intro hne hrun
      have hbe : (input == ([] : List Char)) = false := by
        rw [beq_eq_false_iff_ne]; exact hne
      simp [parseDateInput, hsplit, hbe, hrun]
    · intro lbl d hrun hne
      have hbe : (input == ([] : List Char)) = false := by
        rw [beq_eq_false_iff_ne]; exact hne
      simp [parseDateInput, hsplit, hbe, hrun]
  · cases h : parseDateInput env rawInput defZ with
    | success i z lb d p => exact Or.inl ⟨i, z, lb, d, p, rfl⟩
    | failure i z lb m => exact Or.inr ⟨i, z, lb, m, rfl⟩

theorem claim_c5_witness :
    parseDateInput sampleEnv ([] : List Char) zUTC
      = .failure [] zUTC (zoneDisplayName zUTC) emptyInputError :=
  (((claim_c5 sampleEnv ([] : List Char) zUTC).1 [] zUTC (by decide)).1 rfl)

/-- C8 (amended): the formatted output has the exact shape
`YYYY-MM-DDTHH:MM:SS ±HH:MM ZONE` provided the zone-local year has four digits,
the offset is below one day in magnitude, and the zone token is nonempty; for a
fixed zone the shifted instant must also be within the clip range, and for a
named zone the environment-supplied parts must be in calendar field range.  (The
unamended claim fails: years below 1000 print with fewer than four digits.) -/
theorem claim_c8 (env : JsEnv) (t : Int) (zone : ZoneSpec) :
    (∀ off lbl s, zone = .fixed off lbl → timeClip (t + off * 60000) = some s →
      1000 ≤ (msToParts s).year → (msToParts s).year ≤ 9999 →
      off.natAbs ≤ 1439 → lbl ≠ [] →
      shapeOK (formatInstantForZone env t zone) = true) ∧
    (∀ name snap, zone = .iana name snap →
      1000 ≤ (env.ianaParts name t).year → (env.ianaParts name t).year ≤ 9999 →
      0 ≤ (env.ianaParts name t).month → (env.ianaParts name t).month < 100 →
      0 ≤ (env.ianaParts name t).day → (env.ianaParts name t).day < 100 →
      0 ≤ (env.ianaParts name t).hour → (env.ianaParts name t).hour < 100 →
      0 ≤ (env.ianaParts name t).minute → (env.ianaParts name t).minute < 100 →
      0 ≤ (env.ianaParts name t).second → (env.ianaParts name t).second < 100 →
      ((getTimeZoneOffsetMilliseconds env t name).tdiv 60000).natAbs ≤ 1439 →
      ((env.ianaShortName name t).getD name) ≠ [] →
      shapeOK (formatInstantForZone env t zone) = true) := by
  constructor
  · intro off lbl s hz hclip hy1 hy2 hoff hlbl
    subst hz
    obtain ⟨hh0, hh23, hn0, hn59, hs0, hs59, hmo1, hmo12, hd1, hd31⟩ := msToParts_bounds s
    simp only [formatInstantForZone, hclip]
    exact formatDateString_shape (msToParts s) off lbl hy1 hy2 (by omega) (by omega)
      (by omega) (by omega) (by omega) (by omega) (by omega) (by omega) (by omega) (by omega)
      hoff hlbl
  · intro name snap hz hy1 hy2 hmo0 hmo hd0 hd hh0 hh hn0 hn hs0 hs hoff htok
    subst hz
    simp only [formatInstantForZone]
    exact formatDateString_shape _ _ _ hy1 hy2 hmo0 hmo hd0 hd hh0 hh hn0 hn hs0 hs hoff htok

theorem claim_c8_counterexample :
    formatInstantForZone sampleEnv (daysFromCivil 999 1 1 * 86400000)
      (.fixed 0 (("UTC").data)) = ("999-01-01T00:00:00 +00:00 UTC").data ∧
    shapeOK (formatInstantForZone sampleEnv (daysFromCivil 999 1 1 * 86400000)
      (.fixed 0 (("UTC").data))) = false := by
  decide

theorem claim_c8_witness :
    shapeOK (formatInstantForZone sampleEnv 0 (.fixed 0 (("UTC").data))) = true :=
  (claim_c8 sampleEnv 0 (.fixed 0 (("UTC").data))).1 0 (("UTC").data) 0 rfl (by decide)
    (by decide) (by decide) (by decide) (by decide)

theorem claim_c9_counterexample :
    (parseDateInput sampleEnv (stripZoneToken (formatInstantForZone sampleEnv 500 zUTC))
      zUTC).instantOf = some 0 ∧ (0 : Int) ≠ 500 := by
  decide

theorem claim_c9_witness :
    (parseDateInput sampleEnv (stripZoneToken (formatInstantForZone sampleEnv 0
      (.fixed 0 (("UTC").data)))) (.fixed 0 (("UTC").data))).instantOf = some 0 :=
  claim_c9 sampleEnv 0 0 (("UTC").data) (by decide) (by decide) (by decide) (by decide)
    (by decide)
